import Mathlib

/-!
# Verification of the parsl monitoring database manager

A shallow embedding of `parsl/monitoring/db_manager.py`: the declarative
schema and message-to-row materialisation (`Database._generate_mappings`),
the store adapter (bulk insert / bulk update keyed by primary key), and the
coordinator loop of `DatabaseManager.start` with its reconciliation state
(`inserted_tasks`, `inserted_tries`, `deferred_resource_messages`), together
with the batcher `_get_messages_in_batch`, the exception wrappers
`_insert`/`_update`, the loop-termination condition, and the `close`
finaliser.

Python dictionaries (messages and row mappings) are embedded as association
lists over a `Value` type covering the scalar shapes the manager handles
(integers, strings, booleans; timestamps are embedded as integers).
Fallible dictionary subscripting (`msg['k']`, a `KeyError` in Python) and the
`RuntimeError` for unexpected priority-queue message types are embedded in
the `Except String` monad, so a trace that would crash the coordinator is an
`Except.error` rather than a state.
-/

set_option maxHeartbeats 1000000

namespace ParslDB

/-- Scalar values carried in monitoring messages.  Timestamps (Python
`datetime`) are embedded as integers. -/
inductive Value where
  | int (n : Int)
  | str (s : String)
  | bool (b : Bool)
deriving DecidableEq, Repr

/-- Python `str()` on an embedded value, as used to build
`task_try_id = str(msg['task_id']) + "." + str(msg['try_id'])`. -/
def Value.pystr : Value → String
  | .int n => toString n
  | .str s => s
  | .bool b => if b then "True" else "False"

/-- Python truthiness of an embedded value, as used by
`if msg['first_msg']:`. -/
def Value.truthy : Value → Bool
  | .int n => n != 0
  | .str s => s != ""
  | .bool b => b

/-- A Python dictionary with string keys, embedded as an association list.
`set` replaces in place (as dictionary assignment does), so keys stay
distinct when built through it. -/
abbrev Dict (α : Type) : Type := List (String × α)

namespace Dict

def get {α : Type} : Dict α → String → Option α
  | [], _ => none
  | (k', v) :: rest, k => if k' = k then some v else get rest k

def set {α : Type} : Dict α → String → α → Dict α
  | [], k, v => [(k, v)]
  | (k', v') :: rest, k, v =>
    if k' = k then (k, v) :: rest else (k', v') :: set rest k v

def erase {α : Type} : Dict α → String → Dict α
  | [], _ => []
  | (k', v) :: rest, k => if k' = k then rest else (k', v) :: erase rest k

@[simp] theorem get_nil {α : Type} (k : String) : Dict.get ([] : Dict α) k = none := rfl

theorem get_cons {α : Type} (k' k : String) (v : α) (rest : Dict α) :
    Dict.get ((k', v) :: rest : Dict α) k = if k' = k then some v else Dict.get rest k := rfl

@[simp] theorem get_set {α : Type} (m : Dict α) (k k' : String) (v : α) :
    Dict.get (Dict.set m k v) k' = if k = k' then some v else Dict.get m k' := by
  induction m with
  | nil =>
    by_cases h : k = k' <;> simp [set, get, h]
  | cons p rest ih =>
    obtain ⟨k0, v0⟩ := p
    by_cases h0 : k0 = k
    · subst h0
      by_cases h : k0 = k' <;> simp [set, get, h]
    · by_cases h : k0 = k'
      · subst h
        have hkk : ¬ k = k0 := fun hh => h0 hh.symm
        simp [set, get, h0, hkk]
      · simp [set, get, h0, h, ih]

theorem get_erase {α : Type} (m : Dict α) (k k' : String) (hne : k ≠ k') :
    Dict.get (Dict.erase m k) k' = Dict.get m k' := by
  induction m with
  | nil => simp [erase]
  | cons p rest ih =>
    obtain ⟨k0, v0⟩ := p
    by_cases h0 : k0 = k
    · subst h0
      have hne' : ¬ k0 = k' := fun hh => hne hh
      simp [erase, get, hne']
    · by_cases h : k0 = k'
      · subst h
        simp [erase, get, h0]
      · simp [erase, get, h0, h, ih]

end Dict

/-- A monitoring message: a key-to-value dictionary. -/
abbrev Msg := Dict Value

/-- A materialised row mapping: the absent-key case is stored as `none`
(SQL `NULL`), mirroring `msg.get(column, None)`. -/
abbrev Row := Dict (Option Value)

/-- `msg.get(column, None)` never fails; this is plain `Dict.get`. -/
def Msg.lookup (m : Msg) (k : String) : Option Value := Dict.get m k

/-- Python `msg[k]`: raises `KeyError` when the key is absent. -/
def Msg.subscript (m : Msg) (k : String) : Except String Value :=
  match Dict.get m k with
  | some v => Except.ok v
  | none => Except.error ("KeyError: " ++ k)

theorem Msg.subscript_of_lookup (m : Msg) (k : String) (v : Value)
    (h : Msg.lookup m k = some v) : Msg.subscript m k = Except.ok v := by
  unfold Msg.subscript
  unfold Msg.lookup at h
  rw [h]

/- ### Table names (module constants WORKFLOW, TASK, ...) -/

def WORKFLOW : String := "workflow"
def TASK : String := "task"
def TRY : String := "try"
def STATUS : String := "status"
def RESOURCE : String := "resource"
def NODE : String := "node"

/- ### Declarative schema: column names in declaration order, and the
primary-key constraints, from the `Database.Workflow` ... `Database.Resource`
class definitions. -/

def workflow_columns : List String :=
  ["run_id", "workflow_name", "workflow_version", "time_began",
   "time_completed", "host", "user", "rundir",
   "tasks_failed_count", "tasks_completed_count"]

def workflow_pk : List String := ["run_id"]

def status_columns : List String :=
  ["task_id", "task_status_name", "timestamp", "run_id", "try_id"]

def status_pk : List String := ["task_id", "run_id", "task_status_name", "timestamp"]

def task_columns : List String :=
  ["task_id", "run_id", "task_depends", "task_func_name", "task_memoize",
   "task_hashsum", "task_inputs", "task_outputs", "task_stdin",
   "task_stdout", "task_stderr", "task_time_returned", "task_fail_count"]

def task_pk : List String := ["task_id", "run_id"]

def try_columns : List String :=
  ["try_id", "task_id", "run_id", "hostname", "task_executor",
   "task_time_submitted", "task_time_running", "task_try_time_returned",
   "task_fail_history"]

def try_pk : List String := ["try_id", "task_id", "run_id"]

def node_columns : List String :=
  ["id", "run_id", "hostname", "cpu_count", "total_memory", "active",
   "worker_count", "python_v", "reg_time"]

def node_pk : List String := ["id"]

def resource_columns : List String :=
  ["try_id", "task_id", "run_id", "timestamp",
   "resource_monitoring_interval", "psutil_process_pid",
   "psutil_process_cpu_percent", "psutil_process_memory_percent",
   "psutil_process_children_count", "psutil_process_time_user",
   "psutil_process_time_system", "psutil_process_memory_virtual",
   "psutil_process_memory_resident", "psutil_process_disk_read",
   "psutil_process_disk_write", "psutil_process_status"]

def resource_pk : List String := ["try_id", "task_id", "run_id", "timestamp"]

def tableColumns (table : String) : List String :=
  if table = WORKFLOW then workflow_columns
  else if table = TASK then task_columns
  else if table = TRY then try_columns
  else if table = STATUS then status_columns
  else if table = NODE then node_columns
  else if table = RESOURCE then resource_columns
  else []

def tablePK (table : String) : List String :=
  if table = WORKFLOW then workflow_pk
  else if table = TASK then task_pk
  else if table = TRY then try_pk
  else if table = STATUS then status_pk
  else if table = NODE then node_pk
  else if table = RESOURCE then resource_pk
  else []

/- ### `Database._generate_mappings` -/

/-- The inner loop of `_generate_mappings`: `m = {}`, then
`for column in columns: m[column] = msg.get(column, None)`. -/
def row_of (columns : List String) (msg : Msg) : Row :=
  columns.foldl (fun m column => Dict.set m column (msg.lookup column)) []

/-- `Database._generate_mappings(table, columns, messages)`: one row mapping
per message, in order.  When `columns` is `None` the full column list of the
table is used (the Python code rebinds the local `columns` to
`table.c.keys()` on the first iteration; since it always rebinds to the same
list this is equivalent to resolving it per message). -/
def generate_mappings (table_columns : List String)
    (columns : Option (List String)) (messages : List Msg) : List Row :=
  messages.map (fun msg =>
    row_of (match columns with | none => table_columns | some cs => cs) msg)

theorem row_of_get (columns : List String) (msg : Msg) (k : String) :
    Dict.get (row_of columns msg) k =
      if k ∈ columns then some (Msg.lookup msg k) else none := by
  suffices h : ∀ (init : Row),
      Dict.get (columns.foldl (fun m column => Dict.set m column (Msg.lookup msg column)) init) k =
        if k ∈ columns then some (Msg.lookup msg k) else Dict.get init k by
    simpa [row_of] using h []
  induction columns with
  | nil => simp
  | cons c rest ih =>
    intro init
    by_cases hc : k ∈ rest
    · simp [List.foldl_cons, ih, hc]
    · by_cases hck : c = k
      · subst hck
        simp [List.foldl_cons, ih, hc]
      · have hmem : ¬ k ∈ c :: rest := by
          intro hin
          rcases List.mem_cons.mp hin with h1 | h1
          · exact hck h1.symm
          · exact hc h1
        simp [List.foldl_cons, ih, hc, hck, hmem]

/- ### Store adapter (`Database.insert` / `Database.update`)

`insert` appends the materialised rows (`bulk_insert_mappings` + commit).
`update` (`bulk_update_mappings` + commit) updates, for every mapping, the
rows whose primary-key columns equal the mapping's, setting each column of
the row for which the mapping carries a binding; a mapping key that is not a
column of the table cannot be stored in the row (sqlalchemy's bulk update
intersects the mapping's keys with the mapper's columns). -/

def pkMatch (pk : List String) (mapping row : Row) : Bool :=
  pk.all (fun k => Dict.get row k == Dict.get mapping k)

def updateRow (pk : List String) (mapping row : Row) : Row :=
  if pkMatch pk mapping row then
    row.map (fun cv => (cv.1, (Dict.get mapping cv.1).getD cv.2))
  else row

def bulkUpdate (pk : List String) (table : List Row) (mappings : List Row) : List Row :=
  mappings.foldl (fun t m => t.map (updateRow pk m)) table

/-- The six tables.  A table is the list of its rows in insertion order. -/
structure DB where
  workflow : List Row := []
  task : List Row := []
  try_ : List Row := []
  status : List Row := []
  node : List Row := []
  resource : List Row := []
deriving DecidableEq, Repr

def DB.insertInto (db : DB) (table : String) (messages : List Msg) : DB :=
  let rows := generate_mappings (tableColumns table) none messages
  if table = WORKFLOW then { db with workflow := db.workflow ++ rows }
  else if table = TASK then { db with task := db.task ++ rows }
  else if table = TRY then { db with try_ := db.try_ ++ rows }
  else if table = STATUS then { db with status := db.status ++ rows }
  else if table = NODE then { db with node := db.node ++ rows }
  else if table = RESOURCE then { db with resource := db.resource ++ rows }
  else db

def DB.updateInto (db : DB) (table : String) (columns : List String)
    (messages : List Msg) : DB :=
  let mappings := generate_mappings (tableColumns table) (some columns) messages
  let pk := tablePK table
  if table = WORKFLOW then { db with workflow := bulkUpdate pk db.workflow mappings }
  else if table = TASK then { db with task := bulkUpdate pk db.task mappings }
  else if table = TRY then { db with try_ := bulkUpdate pk db.try_ mappings }
  else if table = STATUS then { db with status := bulkUpdate pk db.status mappings }
  else if table = NODE then { db with node := bulkUpdate pk db.node mappings }
  else if table = RESOURCE then { db with resource := bulkUpdate pk db.resource mappings }
  else db

/- ### The coordinator (`DatabaseManager.start`) -/

/-- Modelled from the spec (§6): the tag enum
`parsl.monitoring.message_type.MessageType` is not part of src/; the spec
names `WORKFLOW_INFO` and `TASK_INFO` as the priority-queue tags, and the
node and resource streams carry their own tags. -/
inductive MessageType where
  | WORKFLOW_INFO
  | TASK_INFO
  | NODE_INFO
  | RESOURCE_INFO
deriving DecidableEq, Repr

/-- Modelled from the spec: `parsl.dataflow.states.States.running.name` (the
`States` enum is not part of src/); the spec's scenarios show the resource
`first_msg` records a `Status` transition named `running`. -/
def States_running_name : String := "running"

/-- A DML call issued by the coordinator, as passed to
`DatabaseManager._insert` / `DatabaseManager._update`. -/
inductive DMLOp where
  | insertOp (table : String) (messages : List Msg)
  | updateOp (table : String) (columns : List String) (messages : List Msg)
deriving DecidableEq, Repr

/-- The coordinator's mutable state: the store, the three loop-local
reconciliation structures, the two workflow lifecycle fields, and the log of
DML calls issued so far. -/
structure CoordState where
  db : DB
  inserted_tasks : List Value
  inserted_tries : List String
  deferred_resource_messages : Dict Msg
  workflow_start_message : Option Msg
  workflow_end : Bool
  ops : List DMLOp
deriving Repr

def initial_state : CoordState :=
  { db := {}, inserted_tasks := [], inserted_tries := [],
    deferred_resource_messages := [], workflow_start_message := none,
    workflow_end := false, ops := [] }

/-- `DatabaseManager._insert` in the fault-free case (the exception wrapper
is modelled separately for the error-handling claim). -/
def dbm_insert (s : CoordState) (table : String) (messages : List Msg) : CoordState :=
  { s with db := s.db.insertInto table messages,
           ops := s.ops ++ [DMLOp.insertOp table messages] }

/-- `DatabaseManager._update` in the fault-free case. -/
def dbm_update (s : CoordState) (table : String) (columns : List String)
    (messages : List Msg) : CoordState :=
  { s with db := s.db.updateInto table columns messages,
           ops := s.ops ++ [DMLOp.updateOp table columns messages] }

/-- `task_try_id = str(msg['task_id']) + "." + str(msg['try_id'])`. -/
def task_try_id_of (msg : Msg) : Except String String := do
  let t ← Msg.subscript msg "task_id"
  let r ← Msg.subscript msg "try_id"
  pure (t.pystr ++ "." ++ r.pystr)

/-- The accumulator of the priority-batch classification loop: the
coordinator state plus the seven loop-local lists (`try_all_messages` is
built by the source but never read afterwards; it is kept for fidelity). -/
structure PrioAcc where
  st : CoordState
  task_info_update_messages : List Msg
  task_info_insert_messages : List Msg
  task_info_all_messages : List Msg
  try_update_messages : List Msg
  try_insert_messages : List Msg
  try_all_messages : List Msg
  reprocessable : List Msg
deriving Repr

/-- One step of `for msg_type, msg in priority_messages:`. -/
def classify_priority (acc : PrioAcc) : MessageType × Msg → Except String PrioAcc
  | (msg_type, msg) => do
  if msg_type = MessageType.WORKFLOW_INFO then
    if (Msg.lookup msg "python_version").isSome then
      -- workflow start message
      pure { acc with st :=
        { dbm_insert acc.st WORKFLOW [msg] with workflow_start_message := some msg } }
    else
      -- workflow end message
      pure { acc with st :=
        { dbm_update acc.st WORKFLOW
            ["run_id", "tasks_failed_count", "tasks_completed_count", "time_completed"]
            [msg] with workflow_end := true } }
  else if msg_type = MessageType.TASK_INFO then do
    let task_try_id ← task_try_id_of msg
    let tid ← Msg.subscript msg "task_id"
    let acc := { acc with
      task_info_all_messages := acc.task_info_all_messages ++ [msg] }
    let acc :=
      if acc.st.inserted_tasks.contains tid then
        { acc with task_info_update_messages := acc.task_info_update_messages ++ [msg] }
      else
        { acc with
          st := { acc.st with inserted_tasks := acc.st.inserted_tasks ++ [tid] },
          task_info_insert_messages := acc.task_info_insert_messages ++ [msg] }
    let acc := { acc with try_all_messages := acc.try_all_messages ++ [msg] }
    if acc.st.inserted_tries.contains task_try_id then
      pure { acc with try_update_messages := acc.try_update_messages ++ [msg] }
    else
      let acc := { acc with
        st := { acc.st with inserted_tries := acc.st.inserted_tries ++ [task_try_id] },
        try_insert_messages := acc.try_insert_messages ++ [msg] }
      -- check if there is a left_message for this task
      match Dict.get acc.st.deferred_resource_messages task_try_id with
      | some dm =>
          let deferred' := Dict.erase acc.st.deferred_resource_messages task_try_id
          pure { acc with
            st := { acc.st with deferred_resource_messages := deferred' },
            reprocessable := acc.reprocessable ++ [dm] }
      | none => pure acc
  else
    Except.error "RuntimeError: unexpected message type on priority queue"

/-- The DML block that follows the classification loop, in source order. -/
def apply_priority_dml (acc : PrioAcc) : CoordState :=
  let s1 := dbm_update acc.st WORKFLOW
    ["run_id", "tasks_failed_count", "tasks_completed_count"]
    acc.task_info_all_messages
  let s2 := if acc.task_info_insert_messages.isEmpty then s1
    else dbm_insert s1 TASK acc.task_info_insert_messages
  let s3 := if acc.task_info_update_messages.isEmpty then s2
    else dbm_update s2 TASK
      ["task_time_submitted", "task_time_returned", "run_id", "task_id", "task_fail_count"]
      acc.task_info_update_messages
  let s4 := dbm_insert s3 STATUS acc.task_info_all_messages
  let s5 := if acc.try_insert_messages.isEmpty then s4
    else dbm_insert s4 TRY acc.try_insert_messages
  let s6 := if acc.try_update_messages.isEmpty then s5
    else dbm_update s5 TRY
      ["task_time_returned", "run_id", "task_id", "try_id", "task_fail_history",
       "task_time_submitted", "task_try_time_returned"]
      acc.try_update_messages
  s6

/-- The `if priority_messages:` block.  Returns the new state and the
`reprocessable_first_resource_messages` contributed by deferred promotions
(the list is initialised empty at the top of every loop iteration). -/
def process_priority_batch (s : CoordState)
    (priority_messages : List (MessageType × Msg)) :
    Except String (CoordState × List Msg) :=
  if priority_messages.isEmpty then pure (s, [])
  else do
    let acc ← priority_messages.foldlM classify_priority
      { st := s, task_info_update_messages := [], task_info_insert_messages := [],
        task_info_all_messages := [], try_update_messages := [],
        try_insert_messages := [], try_all_messages := [], reprocessable := [] }
    pure (apply_priority_dml acc, acc.reprocessable)

/-- The `if node_info_messages:` block. -/
def process_node_batch (s : CoordState) (node_info_messages : List Msg) : CoordState :=
  if node_info_messages.isEmpty then s else dbm_insert s NODE node_info_messages

/-- One step of `for msg in resource_messages:`; threads the state and the
reprocessable list. -/
def handle_resource_message : CoordState × List Msg → Msg →
    Except String (CoordState × List Msg)
  | (s, repro), msg => do
  let task_try_id ← task_try_id_of msg
  let first ← Msg.subscript msg "first_msg"
  if first.truthy then do
    let ts ← Msg.subscript msg "timestamp"
    let msg' := Dict.set (Dict.set msg "task_status_name"
      (Value.str States_running_name)) "task_time_running" ts
    if s.inserted_tries.contains task_try_id then
      pure (s, repro ++ [msg'])
    else
      -- a second deferred message for the same key overwrites the first
      -- (the source logs an error and discards the previous message)
      let deferred' := Dict.set s.deferred_resource_messages task_try_id msg'
      pure ({ s with deferred_resource_messages := deferred' }, repro)
  else
    pure (s, repro)

/-- The `if resource_messages:` block: the whole batch is inserted into
`Resource` first (with the original message contents), then each message is
examined for `first_msg` promotion or deferral. -/
def process_resource_batch (s : CoordState) (resource_messages : List Msg)
    (repro : List Msg) : Except String (CoordState × List Msg) :=
  if resource_messages.isEmpty then pure (s, repro)
  else
    let s1 := dbm_insert s RESOURCE resource_messages
    resource_messages.foldlM handle_resource_message (s1, repro)

/-- The `if reprocessable_first_resource_messages:` block at the end of an
iteration. -/
def apply_reprocessable (s : CoordState) (repro : List Msg) : CoordState :=
  if repro.isEmpty then s
  else
    dbm_update (dbm_insert s STATUS repro) TRY
      ["task_time_running", "run_id", "task_id", "try_id", "hostname"] repro

/-- The three batches drained by one iteration of the coordinator loop. -/
structure Iter where
  prio : List (MessageType × Msg)
  node : List Msg
  res : List Msg

/-- One iteration of the coordinator's `while` loop body. -/
def process_iteration (s : CoordState) (it : Iter) : Except String CoordState := do
  let x1 ← process_priority_batch s it.prio
  let s2 := process_node_batch x1.1 it.node
  let x3 ← process_resource_batch s2 it.res x1.2
  pure (apply_reprocessable x3.1 x3.2)

/-- A finite run of the coordinator loop over a trace of drained batches. -/
def run_trace (s : CoordState) (iters : List Iter) : Except String CoordState :=
  iters.foldlM process_iteration s

/- ### Loop-termination condition (source lines 373-375) -/

/-- The `while` condition of the coordinator loop.  The source consults the
kill event, the internal `pending_priority_queue` and
`pending_resource_queue`, and the external `priority_queue` and
`resource_queue`.  The node-queue sizes are parameters here so that claims
about them can be stated: the source condition does not read them. -/
def loop_condition (kill_event_is_set : Bool)
    (pending_priority_qsize _pending_node_qsize pending_resource_qsize : Nat)
    (priority_qsize _node_qsize resource_qsize : Nat) : Bool :=
  !kill_event_is_set || pending_priority_qsize != 0 || pending_resource_qsize != 0 ||
    priority_qsize != 0 || resource_qsize != 0

/- ### Batcher (`DatabaseManager._get_messages_in_batch`) -/

/-- One observed iteration of the batcher's `while True` loop: whether
`time.time() - start >= interval` held at the cutoff check, and what the
0.1-second queue poll returned (`none` embeds `queue.Empty`). -/
structure BatchStep (α : Type) where
  elapsed_ge_interval : Bool
  poll : Option α
deriving DecidableEq, Repr

/-- The batcher loop over a finite observation trace: break on the time
cutoff or on `len(messages) >= threshold`, break on an empty poll, append
otherwise. -/
def get_batch_aux {α : Type} (threshold : Nat) (acc : List α) :
    List (BatchStep α) → List α
  | [] => acc
  | step :: rest =>
    if step.elapsed_ge_interval || acc.length ≥ threshold then acc
    else
      match step.poll with
      | none => acc
      | some x => get_batch_aux threshold (acc ++ [x]) rest

/-- `DatabaseManager._get_messages_in_batch(q, interval, threshold)`:
`messages = []` then the loop. -/
def get_messages_in_batch {α : Type} (threshold : Nat)
    (steps : List (BatchStep α)) : List α :=
  get_batch_aux threshold [] steps

/- ### Exception wrapper (`DatabaseManager._update` / `_insert`) -/

/-- Outcome of a Python call: normal return, a `KeyboardInterrupt`, or an
exception of class `Exception` (what `except Exception` catches). -/
inductive PyOutcome where
  | ok
  | keyboard_interrupt
  | exc (message : String)
deriving DecidableEq, Repr

/-- The `try/except` structure shared by `DatabaseManager._update` and
`DatabaseManager._insert`, as a function of the outcome of the wrapped DML
call and of `self.db.rollback()`: returns the outcome of the whole method
and whether a rollback was attempted.  The inner `try/except Exception`
swallows exceptions raised by the rollback itself (a `KeyboardInterrupt`
raised by the rollback is not an `Exception` and would propagate). -/
def dml_wrapper (dml : PyOutcome) (rollback : PyOutcome) : PyOutcome × Bool :=
  match dml with
  | .ok => (.ok, false)
  | .keyboard_interrupt =>
    -- logger.exception(...); try: rollback except Exception: log; raise
    (match rollback with
     | .keyboard_interrupt => PyOutcome.keyboard_interrupt
     | _ => PyOutcome.keyboard_interrupt, true)
  | .exc _ =>
    -- logger.exception(...); try: rollback except Exception: log; return
    (match rollback with
     | .keyboard_interrupt => PyOutcome.keyboard_interrupt
     | _ => PyOutcome.ok, true)

/- ### Finaliser (`DatabaseManager.close`) -/

/-- The store-visible part of `DatabaseManager.close`: when no workflow-end
message was processed but a workflow start message was remembered,
synthesise `time_completed` (the wall clock `now`, embedded as an integer)
and `workflow_duration = now - time_began` (seconds) into the remembered
message and apply it as a `Workflow` update on columns
`run_id, time_completed, workflow_duration`.  Subtracting from a
non-time `time_began` would raise in Python, hence the `Except`.  The
batching-parameter and kill-event assignments touch no modelled state. -/
def close_model (now : Int) (s : CoordState) : Except String CoordState :=
  if !s.workflow_end then
    match s.workflow_start_message with
    | some wsm =>
      if wsm.isEmpty then pure s  -- an empty dict is falsy in Python
      else do
        let tb ← Msg.subscript wsm "time_began"
        let t0 ← match tb with
          | Value.int t0 => pure t0
          | _ => Except.error "TypeError: unsupported operand types"
        let msg := Dict.set (Dict.set wsm "time_completed" (Value.int now))
          "workflow_duration" (Value.int (now - t0))
        let s' := { s with workflow_start_message := some msg }
        pure (dbm_update s' WORKFLOW
          ["run_id", "time_completed", "workflow_duration"] [msg])
    | none => pure s
  else pure s

/-! ## Theorems -/

/- ### Helper lemmas -/

@[simp] theorem except_ok_bind {α β : Type} (a : α) (f : α → Except String β) :
    (Except.ok a : Except String α) >>= f = f a := rfl

@[simp] theorem except_error_bind {α β : Type} (e : String) (f : α → Except String β) :
    (Except.error e : Except String α) >>= f = Except.error e := rfl

@[simp] theorem except_pure_eq {α : Type} (a : α) :
    (pure a : Except String α) = Except.ok a := rfl

theorem get_map_values {α : Type} (row : Dict α) (f : String → α → α) (k : String) :
    Dict.get (row.map (fun cv => (cv.1, f cv.1 cv.2))) k = (Dict.get row k).map (f k) := by
  induction row with
  | nil => rfl
  | cons cv rest ih =>
    obtain ⟨k0, v0⟩ := cv
    by_cases h : k0 = k <;> simp [Dict.get, h, ih]

theorem updateRow_get (pk : List String) (mapping row : Row) (k : String) :
    Dict.get (updateRow pk mapping row) k =
      if pkMatch pk mapping row then
        (Dict.get row k).map (fun v => (Dict.get mapping k).getD v)
      else Dict.get row k := by
  unfold updateRow
  by_cases h : pkMatch pk mapping row
  · rw [if_pos h, if_pos h]
    exact get_map_values row (fun c v => (Dict.get mapping c).getD v) k
  · rw [if_neg h, if_neg h]

/- Dispatch of the store adapter at each concrete table name. -/

theorem insertInto_workflow (db : DB) (msgs : List Msg) :
    db.insertInto WORKFLOW msgs =
      { db with workflow := db.workflow ++ generate_mappings workflow_columns none msgs } := rfl

theorem insertInto_task (db : DB) (msgs : List Msg) :
    db.insertInto TASK msgs =
      { db with task := db.task ++ generate_mappings task_columns none msgs } := rfl

theorem insertInto_try (db : DB) (msgs : List Msg) :
    db.insertInto TRY msgs =
      { db with try_ := db.try_ ++ generate_mappings try_columns none msgs } := rfl

theorem insertInto_status (db : DB) (msgs : List Msg) :
    db.insertInto STATUS msgs =
      { db with status := db.status ++ generate_mappings status_columns none msgs } := rfl

theorem insertInto_node (db : DB) (msgs : List Msg) :
    db.insertInto NODE msgs =
      { db with node := db.node ++ generate_mappings node_columns none msgs } := rfl

theorem insertInto_resource (db : DB) (msgs : List Msg) :
    db.insertInto RESOURCE msgs =
      { db with resource := db.resource ++ generate_mappings resource_columns none msgs } := rfl

theorem updateInto_workflow (db : DB) (cols : List String) (msgs : List Msg) :
    db.updateInto WORKFLOW cols msgs =
      { db with workflow :=
          bulkUpdate workflow_pk db.workflow (generate_mappings workflow_columns (some cols) msgs) } := rfl

theorem updateInto_task (db : DB) (cols : List String) (msgs : List Msg) :
    db.updateInto TASK cols msgs =
      { db with task :=
          bulkUpdate task_pk db.task (generate_mappings task_columns (some cols) msgs) } := rfl

theorem updateInto_try (db : DB) (cols : List String) (msgs : List Msg) :
    db.updateInto TRY cols msgs =
      { db with try_ :=
          bulkUpdate try_pk db.try_ (generate_mappings try_columns (some cols) msgs) } := rfl

theorem zip_map_self {α β : Type} (f : α → β) (l : List α) :
    (l.map f).zip l = l.map (fun x => (f x, x)) := by
  induction l with
  | nil => rfl
  | cons x xs ih => simp [ih]

theorem columns_match_eq_getD (table_columns : List String)
    (columns : Option (List String)) :
    (match columns with | none => table_columns | some cs => cs) =
      columns.getD table_columns := by
  cases columns <;> rfl

/- ### C9: the mapping generator -/

/-- C9: for every table column list, requested column list and message list,
`_generate_mappings` returns one row mapping per message, in message order
(the zip below pairs each produced mapping with its message); each mapping
binds exactly the requested columns — all columns of the table when the
requested list is null — to the message's value at that key, with null when
the key is absent (`Msg.lookup` is total, so a missing key never raises). -/
theorem c9_generate_mappings_shape (table_columns : List String)
    (columns : Option (List String)) (messages : List Msg) :
    (generate_mappings table_columns columns messages).length = messages.length ∧
    ∀ p ∈ (generate_mappings table_columns columns messages).zip messages,
      ∀ k : String,
        Dict.get p.1 k =
          if k ∈ columns.getD table_columns then some (Msg.lookup p.2 k) else none := by
  constructor
  · simp [generate_mappings]
  · intro p hp k
    simp only [generate_mappings.eq_def, columns_match_eq_getD, zip_map_self] at hp
    rcases List.mem_map.mp hp with ⟨m, _, rfl⟩
    exact row_of_get (columns.getD table_columns) m k

/-- Witness for C9 at a concrete input: a one-message batch against the
status table with the full column list; `task_id` is bound to the message's
value and the absent `try_id` is bound to null. -/
theorem c9_generate_mappings_shape_witness :
    Dict.get ((row_of status_columns [("task_id", Value.int 3)],
        ([("task_id", Value.int 3)] : Msg)).1) "task_id" =
      some (some (Value.int 3)) ∧
    Dict.get ((row_of status_columns [("task_id", Value.int 3)],
        ([("task_id", Value.int 3)] : Msg)).1) "try_id" = some none := by
  have h := (c9_generate_mappings_shape status_columns none
    [[("task_id", Value.int 3)]]).2
    (row_of status_columns [("task_id", Value.int 3)], [("task_id", Value.int 3)])
    (by decide)
  constructor
  · rw [h "task_id"]; decide
  · rw [h "try_id"]; decide

/- ### C8: batching bounds -/

theorem get_batch_aux_length_le {α : Type} (threshold : Nat) :
    ∀ (steps : List (BatchStep α)) (acc : List α), acc.length ≤ threshold →
      (get_batch_aux threshold acc steps).length ≤ threshold := by
  intro steps
  induction steps with
  | nil =>
    intro acc h
    simpa [get_batch_aux] using h
  | cons st rest ih =>
    intro acc h
    rw [get_batch_aux]
    by_cases h1 : (st.elapsed_ge_interval || decide (acc.length ≥ threshold)) = true
    · simp only [h1, if_true]
      exact h
    · simp only [h1, if_false]
      cases hp : st.poll with
      | none => exact h
      | some x =>
        apply ih
        have h1' : (st.elapsed_ge_interval || decide (acc.length ≥ threshold)) = false :=
          eq_false_of_ne_true h1
        rcases Bool.or_eq_false_iff.mp h1' with ⟨_, h2⟩
        have hlt := of_decide_eq_false h2
        simp
        omega

/-- C8: the batcher always returns over any finite observation trace (it is
a total function of the trace); the returned list never exceeds the size
threshold; and an empty 0.1-second poll ends the batch at once with the
messages accumulated so far — when fewer than `threshold` messages have
been accumulated, the batch is returned with fewer than `threshold` items,
so the threshold is an upper bound, not a minimum. -/
theorem c8_batching_bounds {α : Type} (threshold : Nat)
    (steps rest : List (BatchStep α)) (acc : List α)
    (hacc : acc.length < threshold) :
    (get_messages_in_batch threshold steps).length ≤ threshold ∧
    get_batch_aux threshold acc ({ elapsed_ge_interval := false, poll := none } :: rest) = acc ∧
    get_batch_aux threshold acc [] = acc := by
  refine ⟨get_batch_aux_length_le threshold steps [] (by simp), ?_, rfl⟩
  rw [get_batch_aux]
  have : ¬ (acc.length ≥ threshold) := by omega
  simp [this]

/-- Witness for C8 at a concrete input: threshold 2, an accumulated batch of
one message, an empty poll next. -/
theorem c8_batching_bounds_witness :
    (get_messages_in_batch 2
        [⟨false, some (Value.int 1)⟩, ⟨false, some (Value.int 2)⟩,
         ⟨false, some (Value.int 3)⟩]).length ≤ 2 ∧
    get_batch_aux 2 [Value.int 1] [⟨false, none⟩, ⟨false, some (Value.int 9)⟩] =
      [Value.int 1] ∧
    get_batch_aux 2 [Value.int 1] [] = [Value.int 1] := by
  exact c8_batching_bounds 2
    [⟨false, some (Value.int 1)⟩, ⟨false, some (Value.int 2)⟩,
     ⟨false, some (Value.int 3)⟩]
    [⟨false, some (Value.int 9)⟩] [Value.int 1] (by decide)

/- ### C7: DML exception handling -/

/-- C7: a non-`KeyboardInterrupt` exception raised by the DML call inside
`_update`/`_insert` is caught, a rollback is attempted (exceptions raised by
the rollback itself are swallowed), and the method returns normally; a
`KeyboardInterrupt` from the DML call is re-raised after the rollback
attempt.  The hypothesis excludes the rollback itself raising
`KeyboardInterrupt`, which `except Exception` does not catch. -/
theorem c7_dml_exception_handling (e : String) (rollback : PyOutcome)
    (hrb : rollback ≠ PyOutcome.keyboard_interrupt) :
    dml_wrapper (PyOutcome.exc e) rollback = (PyOutcome.ok, true) ∧
    dml_wrapper PyOutcome.keyboard_interrupt rollback =
      (PyOutcome.keyboard_interrupt, true) ∧
    dml_wrapper PyOutcome.ok rollback = (PyOutcome.ok, false) := by
  cases rollback with
  | ok => exact ⟨rfl, rfl, rfl⟩
  | keyboard_interrupt => exact absurd rfl hrb
  | exc m => exact ⟨rfl, rfl, rfl⟩

/-- Witness for C7 at a concrete input: a failed insert with a successful
rollback. -/
theorem c7_dml_exception_handling_witness :
    dml_wrapper (PyOutcome.exc "IntegrityError") PyOutcome.ok =
      (PyOutcome.ok, true) ∧
    dml_wrapper PyOutcome.keyboard_interrupt PyOutcome.ok =
      (PyOutcome.keyboard_interrupt, true) := by
  have h := c7_dml_exception_handling "IntegrityError" PyOutcome.ok (by decide)
  exact ⟨h.1, h.2.1⟩

/- ### C4: loop termination condition -/

/-- C4 counterexample: with the kill event set and every priority/resource
queue empty, the loop condition is false (the coordinator exits) even
though the internal node queue holds 5 items and the external node queue
holds 7 — refuting the claim that the loop never exits while any internal
or external queue is non-empty. -/
theorem c4_counterexample :
    loop_condition true 0 5 0 0 7 0 = false ∧ ¬ ((5 : Nat) = 0 ∧ (7 : Nat) = 0) := by
  decide

/-- C4 amended: the coordinator loop exits exactly when the kill event is
set and the internal and external priority and resource queues are all
empty; the node queues (internal `pending_node_queue` and the external node
queue) are not consulted by the loop condition. -/
theorem c4_loop_termination (kill : Bool) (pp pn pr ep en er : Nat) :
    loop_condition kill pp pn pr ep en er = false ↔
      kill = true ∧ pp = 0 ∧ pr = 0 ∧ ep = 0 ∧ er = 0 := by
  cases kill <;> simp [loop_condition, and_assoc]

/- ### C5: abnormal-exit workflow finalisation -/

/-- C5 counterexample: a state holding a remembered workflow start message
(`run_id` "r1", `time_began` 0) whose `Workflow` row was materialised over
the table's columns.  Running `close` at wall-clock time 5 leaves the row
with no `workflow_duration` value at all — the `Workflow` table has no such
column — refuting the part of the claim that says the row's
`workflow_duration` equals now - time_began (which would be 5). -/
theorem c5_counterexample :
    (close_model 5
        { db := { workflow := [row_of workflow_columns
            [("run_id", Value.str "r1"), ("time_began", Value.int 0),
             ("python_version", Value.str "3.8")]] },
          inserted_tasks := [], inserted_tries := [],
          deferred_resource_messages := [],
          workflow_start_message := some
            [("run_id", Value.str "r1"), ("time_began", Value.int 0),
             ("python_version", Value.str "3.8")],
          workflow_end := false, ops := [] }).map
        (fun s' => s'.db.workflow.map (fun r => Dict.get r "workflow_duration")) =
      Except.ok [none] ∧
    ¬ ([some (some (Value.int (5 - 0)))] = ([none] : List (Option (Option Value)))) := by
  constructor
  · rfl
  · decide

/-- C5 amended: if `close` runs when a workflow start message was recorded
and `workflow_end` is false, it synthesises `time_completed := now` and
`workflow_duration := now - time_began` into the remembered message and
applies it as a `Workflow` update keyed by `run_id` on columns
`run_id, time_completed, workflow_duration`; afterwards the `Workflow`
row's `time_completed` is non-null and equals the finaliser's wall-clock
time, while the computed `workflow_duration` is carried only in the update
message — the `Workflow` table has no `workflow_duration` column, so the
row stores no such value. -/
theorem c5_close_finalisation (now t0 : Int) (s : CoordState) (wsm : Msg) (row : Row)
    (hend : s.workflow_end = false)
    (hwsm : s.workflow_start_message = some wsm)
    (htb : Msg.lookup wsm "time_began" = some (Value.int t0))
    (hrow : s.db.workflow = [row])
    (hkey : Dict.get row "run_id" = some (Msg.lookup wsm "run_id"))
    (htc : ∃ tc, Dict.get row "time_completed" = some tc)
    (hwd : Dict.get row "workflow_duration" = none) :
    ∃ s' row', close_model now s = Except.ok s' ∧
      s'.db.workflow = [row'] ∧
      Dict.get row' "time_completed" = some (some (Value.int now)) ∧
      Dict.get row' "workflow_duration" = none ∧
      ∃ m, s'.ops = s.ops ++
          [DMLOp.updateOp WORKFLOW ["run_id", "time_completed", "workflow_duration"] [m]] ∧
        Msg.lookup m "time_completed" = some (Value.int now) ∧
        Msg.lookup m "workflow_duration" = some (Value.int (now - t0)) := by
  obtain ⟨tc0, htc⟩ := htc
  have hne : wsm.isEmpty = false := by
    cases wsm with
    | nil => simp [Msg.lookup, Dict.get] at htb
    | cons p rest => rfl
  set msg := Dict.set (Dict.set wsm "time_completed" (Value.int now))
      "workflow_duration" (Value.int (now - t0)) with hmsg
  have hmsg_tc : Msg.lookup msg "time_completed" = some (Value.int now) := by
    rw [hmsg]
    unfold Msg.lookup
    simp [Dict.get_set]
  have hmsg_wd : Msg.lookup msg "workflow_duration" = some (Value.int (now - t0)) := by
    rw [hmsg]
    unfold Msg.lookup
    simp [Dict.get_set]
  have hmsg_run : Msg.lookup msg "run_id" = Msg.lookup wsm "run_id" := by
    rw [hmsg]
    unfold Msg.lookup
    simp [Dict.get_set]
  set s1 : CoordState :=
    { s with workflow_start_message := some msg, workflow_end := false } with hs1
  have hclose : close_model now s = Except.ok (dbm_update s1 WORKFLOW
      ["run_id", "time_completed", "workflow_duration"] [msg]) := by
    unfold close_model
    rw [hend, hwsm]
    simp only [Bool.not_false, if_true]
    rw [hne]
    simp only [Bool.false_eq_true, if_false]
    rw [Msg.subscript_of_lookup wsm "time_began" (Value.int t0) htb]
    simp [hs1, hmsg]
  set mapping : Row := row_of ["run_id", "time_completed", "workflow_duration"] msg
    with hmapping
  have hmap_run : Dict.get mapping "run_id" = some (Msg.lookup msg "run_id") := by
    rw [hmapping, row_of_get]
    simp
  have hmap_tc : Dict.get mapping "time_completed" = some (Msg.lookup msg "time_completed") := by
    rw [hmapping, row_of_get]
    simp
  have hmatch : pkMatch workflow_pk mapping row = true := by
    unfold pkMatch workflow_pk
    simp [hkey, hmap_run, hmsg_run]
  have htable : (dbm_update s1 WORKFLOW
      ["run_id", "time_completed", "workflow_duration"] [msg]).db.workflow =
      [updateRow workflow_pk mapping row] := by
    have h1 : (dbm_update s1 WORKFLOW
        ["run_id", "time_completed", "workflow_duration"] [msg]).db.workflow =
        bulkUpdate workflow_pk s1.db.workflow
          (generate_mappings workflow_columns
            (some ["run_id", "time_completed", "workflow_duration"]) [msg]) := rfl
    have hgen : generate_mappings workflow_columns
        (some ["run_id", "time_completed", "workflow_duration"]) [msg] = [mapping] := by
      rw [hmapping]
      rfl
    have hdb : s1.db.workflow = [row] := by
      rw [hs1]
      exact hrow
    rw [h1, hgen, hdb]
    rfl
  refine ⟨dbm_update s1 WORKFLOW ["run_id", "time_completed", "workflow_duration"] [msg],
    updateRow workflow_pk mapping row, hclose, htable, ?_, ?_, msg, ?_, hmsg_tc, hmsg_wd⟩
  · rw [updateRow_get, if_pos hmatch, htc, Option.map_some', hmap_tc, hmsg_tc]
    rfl
  · rw [updateRow_get, if_pos hmatch, hwd]
    rfl
  · rfl

/-- Witness for C5 at a concrete input: start message with run_id "r1" and
time_began 0, wall clock 5 at close. -/
theorem c5_close_finalisation_witness :
    ∃ s' row',
      close_model 5
        { db := { workflow := [row_of workflow_columns
            [("run_id", Value.str "r1"), ("time_began", Value.int 0),
             ("python_version", Value.str "3.9")]] },
          inserted_tasks := [], inserted_tries := [],
          deferred_resource_messages := [],
          workflow_start_message := some
            [("run_id", Value.str "r1"), ("time_began", Value.int 0),
             ("python_version", Value.str "3.9")],
          workflow_end := false, ops := [] } = Except.ok s' ∧
      s'.db.workflow = [row'] ∧
      Dict.get row' "time_completed" = some (some (Value.int 5)) ∧
      Dict.get row' "workflow_duration" = none ∧
      ∃ m, s'.ops = ([] : List DMLOp) ++
          [DMLOp.updateOp WORKFLOW ["run_id", "time_completed", "workflow_duration"] [m]] ∧
        Msg.lookup m "time_completed" = some (Value.int 5) ∧
        Msg.lookup m "workflow_duration" = some (Value.int (5 - 0)) := by
  exact c5_close_finalisation 5 0
    { db := { workflow := [row_of workflow_columns
        [("run_id", Value.str "r1"), ("time_began", Value.int 0),
         ("python_version", Value.str "3.9")]] },
      inserted_tasks := [], inserted_tries := [],
      deferred_resource_messages := [],
      workflow_start_message := some
        [("run_id", Value.str "r1"), ("time_began", Value.int 0),
         ("python_version", Value.str "3.9")],
      workflow_end := false, ops := [] }
    [("run_id", Value.str "r1"), ("time_began", Value.int 0),
     ("python_version", Value.str "3.9")]
    (row_of workflow_columns
      [("run_id", Value.str "r1"), ("time_began", Value.int 0),
       ("python_version", Value.str "3.9")])
    rfl rfl (by decide) rfl (by decide) ⟨none, by decide⟩ (by decide)

/- ### C6: WORKFLOW_INFO dispatch -/

/-- C6: a WORKFLOW_INFO priority message containing the interpreter-version
key "python_version" is processed as workflow start: a row over the
Workflow columns is inserted into Workflow and the message is remembered as
workflow_start_message (workflow_end untouched); a WORKFLOW_INFO message
without that key is processed as workflow end: a Workflow update on exactly
the columns run_id, tasks_failed_count, tasks_completed_count,
time_completed is issued and the workflow_end flag is set to true
(workflow_start_message untouched). -/
theorem c6_workflow_info_dispatch (acc acc' : PrioAcc) (msg : Msg)
    (h : classify_priority acc (MessageType.WORKFLOW_INFO, msg) = Except.ok acc') :
    if (Msg.lookup msg "python_version").isSome then
      acc'.st.db.workflow = acc.st.db.workflow ++ [row_of workflow_columns msg] ∧
      acc'.st.workflow_start_message = some msg ∧
      acc'.st.ops = acc.st.ops ++ [DMLOp.insertOp WORKFLOW [msg]] ∧
      acc'.st.workflow_end = acc.st.workflow_end
    else
      acc'.st.ops = acc.st.ops ++
        [DMLOp.updateOp WORKFLOW
          ["run_id", "tasks_failed_count", "tasks_completed_count", "time_completed"]
          [msg]] ∧
      acc'.st.workflow_end = true ∧
      acc'.st.workflow_start_message = acc.st.workflow_start_message := by
  unfold classify_priority at h
  by_cases hpv : (Msg.lookup msg "python_version").isSome
  · rw [if_pos hpv]
    simp only [if_pos rfl, hpv, if_true] at h
    have hacc : acc' = { acc with st :=
        { dbm_insert acc.st WORKFLOW [msg] with workflow_start_message := some msg } } :=
      (Except.ok.inj h).symm
    subst hacc
    exact ⟨rfl, rfl, rfl, rfl⟩
  · rw [if_neg hpv]
    simp only [if_pos rfl, hpv, if_false, Bool.false_eq_true] at h
    have hacc : acc' = { acc with st :=
        { dbm_update acc.st WORKFLOW
            ["run_id", "tasks_failed_count", "tasks_completed_count", "time_completed"]
            [msg] with workflow_end := true } } :=
      (Except.ok.inj h).symm
    subst hacc
    exact ⟨rfl, rfl, rfl⟩

/-- Witness for C6 at a concrete input: a workflow-end message (no
"python_version" key) processed from the initial state. -/
theorem c6_workflow_info_dispatch_witness :
    if (Msg.lookup [("run_id", Value.str "r1")] "python_version").isSome then
      ({ st := { dbm_update initial_state WORKFLOW
            ["run_id", "tasks_failed_count", "tasks_completed_count", "time_completed"]
            [[("run_id", Value.str "r1")]] with workflow_end := true },
         task_info_update_messages := [], task_info_insert_messages := [],
         task_info_all_messages := [], try_update_messages := [],
         try_insert_messages := [], try_all_messages := [],
         reprocessable := [] } : PrioAcc).st.db.workflow =
        initial_state.db.workflow ++ [row_of workflow_columns [("run_id", Value.str "r1")]] ∧
      ({ st := { dbm_update initial_state WORKFLOW
            ["run_id", "tasks_failed_count", "tasks_completed_count", "time_completed"]
            [[("run_id", Value.str "r1")]] with workflow_end := true },
         task_info_update_messages := [], task_info_insert_messages := [],
         task_info_all_messages := [], try_update_messages := [],
         try_insert_messages := [], try_all_messages := [],
         reprocessable := [] } : PrioAcc).st.workflow_start_message =
          some [("run_id", Value.str "r1")] ∧
      ({ st := { dbm_update initial_state WORKFLOW
            ["run_id", "tasks_failed_count", "tasks_completed_count", "time_completed"]
            [[("run_id", Value.str "r1")]] with workflow_end := true },
         task_info_update_messages := [], task_info_insert_messages := [],
         task_info_all_messages := [], try_update_messages := [],
         try_insert_messages := [], try_all_messages := [],
         reprocessable := [] } : PrioAcc).st.ops =
          initial_state.ops ++ [DMLOp.insertOp WORKFLOW [[("run_id", Value.str "r1")]]] ∧
      ({ st := { dbm_update initial_state WORKFLOW
            ["run_id", "tasks_failed_count", "tasks_completed_count", "time_completed"]
            [[("run_id", Value.str "r1")]] with workflow_end := true },
         task_info_update_messages := [], task_info_insert_messages := [],
         task_info_all_messages := [], try_update_messages := [],
         try_insert_messages := [], try_all_messages := [],
         reprocessable := [] } : PrioAcc).st.workflow_end =
          initial_state.workflow_end
    else
      ({ st := { dbm_update initial_state WORKFLOW
            ["run_id", "tasks_failed_count", "tasks_completed_count", "time_completed"]
            [[("run_id", Value.str "r1")]] with workflow_end := true },
         task_info_update_messages := [], task_info_insert_messages := [],
         task_info_all_messages := [], try_update_messages := [],
         try_insert_messages := [], try_all_messages := [],
         reprocessable := [] } : PrioAcc).st.ops =
        initial_state.ops ++
          [DMLOp.updateOp WORKFLOW
            ["run_id", "tasks_failed_count", "tasks_completed_count", "time_completed"]
            [[("run_id", Value.str "r1")]]] ∧
      ({ st := { dbm_update initial_state WORKFLOW
            ["run_id", "tasks_failed_count", "tasks_completed_count", "time_completed"]
            [[("run_id", Value.str "r1")]] with workflow_end := true },
         task_info_update_messages := [], task_info_insert_messages := [],
         task_info_all_messages := [], try_update_messages := [],
         try_insert_messages := [], try_all_messages := [],
         reprocessable := [] } : PrioAcc).st.workflow_end = true ∧
      ({ st := { dbm_update initial_state WORKFLOW
            ["run_id", "tasks_failed_count", "tasks_completed_count", "time_completed"]
            [[("run_id", Value.str "r1")]] with workflow_end := true },
         task_info_update_messages := [], task_info_insert_messages := [],
         task_info_all_messages := [], try_update_messages := [],
         try_insert_messages := [], try_all_messages := [],
         reprocessable := [] } : PrioAcc).st.workflow_start_message =
        initial_state.workflow_start_message := by
  exact c6_workflow_info_dispatch
    { st := initial_state, task_info_update_messages := [],
      task_info_insert_messages := [], task_info_all_messages := [],
      try_update_messages := [], try_insert_messages := [],
      try_all_messages := [], reprocessable := [] }
    { st := { dbm_update initial_state WORKFLOW
        ["run_id", "tasks_failed_count", "tasks_completed_count", "time_completed"]
        [[("run_id", Value.str "r1")]] with workflow_end := true },
      task_info_update_messages := [], task_info_insert_messages := [],
      task_info_all_messages := [], try_update_messages := [],
      try_insert_messages := [], try_all_messages := [],
      reprocessable := [] }
    [("run_id", Value.str "r1")] rfl

/- ### C10: non-first resource messages -/

/-- C10: a resource message whose first_msg field is falsy produces, in its
coordinator iteration, exactly one DML call — the Resource insert of its
batch; no Status insert and no Try update is issued on its behalf, and
inserted_tasks, inserted_tries, deferred_resource_messages and every table
other than Resource are left unchanged (the result state differs from the
input state only in the Resource table and the op log). -/
theorem c10_non_first_resource (s : CoordState) (msg : Msg) (tv rv fv : Value)
    (ht : Msg.lookup msg "task_id" = some tv)
    (hr : Msg.lookup msg "try_id" = some rv)
    (hf : Msg.lookup msg "first_msg" = some fv)
    (hfv : fv.truthy = false) :
    process_iteration s { prio := [], node := [], res := [msg] } =
      Except.ok { s with
        db := { s.db with resource := s.db.resource ++ [row_of resource_columns msg] },
        ops := s.ops ++ [DMLOp.insertOp RESOURCE [msg]] } := by
  have h1 : task_try_id_of msg = Except.ok (tv.pystr ++ "." ++ rv.pystr) := by
    unfold task_try_id_of
    rw [Msg.subscript_of_lookup msg "task_id" tv ht]
    simp only [except_ok_bind]
    rw [Msg.subscript_of_lookup msg "try_id" rv hr]
    rfl
  have h2 : Msg.subscript msg "first_msg" = Except.ok fv :=
    Msg.subscript_of_lookup msg "first_msg" fv hf
  simp only [process_iteration, process_priority_batch, process_node_batch,
    process_resource_batch, apply_reprocessable, handle_resource_message,
    List.isEmpty_nil, List.isEmpty_cons, if_true, if_false,
    List.foldlM_cons, List.foldlM_nil, h1, h2, hfv,
    except_ok_bind, except_pure_eq, Bool.false_eq_true]
  rfl

/-- Witness for C10 at a concrete input: a lone non-first resource sample
processed from the initial state. -/
theorem c10_non_first_resource_witness :
    process_iteration initial_state
      { prio := [], node := [],
        res := [[("task_id", Value.int 1), ("try_id", Value.int 0),
                 ("first_msg", Value.bool false)]] } =
      Except.ok { initial_state with
        db := { initial_state.db with resource := initial_state.db.resource ++
          [row_of resource_columns
            [("task_id", Value.int 1), ("try_id", Value.int 0),
             ("first_msg", Value.bool false)]] },
        ops := initial_state.ops ++ [DMLOp.insertOp RESOURCE
          [[("task_id", Value.int 1), ("try_id", Value.int 0),
            ("first_msg", Value.bool false)]]] } := by
  exact c10_non_first_resource initial_state
    [("task_id", Value.int 1), ("try_id", Value.int 0), ("first_msg", Value.bool false)]
    (Value.int 1) (Value.int 0) (Value.bool false) rfl rfl rfl rfl

/- ### Step characterisations of the coordinator, used by the trace
invariants -/

theorem Msg.subscript_of_lookup_none (m : Msg) (k : String)
    (h : Msg.lookup m k = none) :
    Msg.subscript m k = Except.error ("KeyError: " ++ k) := by
  unfold Msg.subscript
  unfold Msg.lookup at h
  rw [h]

/-- The value `classify_priority` produces on a WORKFLOW_INFO message. -/
def classify_workflow_pure (acc : PrioAcc) (msg : Msg) : PrioAcc :=
  if (Msg.lookup msg "python_version").isSome then
    { acc with st :=
      { dbm_insert acc.st WORKFLOW [msg] with workflow_start_message := some msg } }
  else
    { acc with st :=
      { dbm_update acc.st WORKFLOW
          ["run_id", "tasks_failed_count", "tasks_completed_count", "time_completed"]
          [msg] with workflow_end := true } }

theorem classify_priority_workflow (acc : PrioAcc) (msg : Msg) :
    classify_priority acc (MessageType.WORKFLOW_INFO, msg) =
      Except.ok (classify_workflow_pure acc msg) := by
  unfold classify_priority classify_workflow_pure
  by_cases h : (Msg.lookup msg "python_version").isSome <;> simp [h]

/-- The value `classify_priority` produces on a TASK_INFO message whose
`task_id` and `try_id` lookups succeed with `tv` and `rv`. -/
def classify_task_info_pure (acc : PrioAcc) (msg : Msg) (tv rv : Value) : PrioAcc :=
  let key := tv.pystr ++ "." ++ rv.pystr
  let acc1 := { acc with task_info_all_messages := acc.task_info_all_messages ++ [msg] }
  let acc2 :=
    if acc1.st.inserted_tasks.contains tv then
      { acc1 with task_info_update_messages := acc1.task_info_update_messages ++ [msg] }
    else
      { acc1 with
        st := { acc1.st with inserted_tasks := acc1.st.inserted_tasks ++ [tv] },
        task_info_insert_messages := acc1.task_info_insert_messages ++ [msg] }
  let acc3 := { acc2 with try_all_messages := acc2.try_all_messages ++ [msg] }
  if acc3.st.inserted_tries.contains key then
    { acc3 with try_update_messages := acc3.try_update_messages ++ [msg] }
  else
    let acc4 := { acc3 with
      st := { acc3.st with inserted_tries := acc3.st.inserted_tries ++ [key] },
      try_insert_messages := acc3.try_insert_messages ++ [msg] }
    match Dict.get acc4.st.deferred_resource_messages key with
    | some dm =>
        let deferred' := Dict.erase acc4.st.deferred_resource_messages key
        { acc4 with
          st := { acc4.st with deferred_resource_messages := deferred' },
          reprocessable := acc4.reprocessable ++ [dm] }
    | none => acc4

theorem classify_priority_task_info (acc : PrioAcc) (msg : Msg) (tv rv : Value)
    (ht : Msg.lookup msg "task_id" = some tv)
    (hr : Msg.lookup msg "try_id" = some rv) :
    classify_priority acc (MessageType.TASK_INFO, msg) =
      Except.ok (classify_task_info_pure acc msg tv rv) := by
  simp only [classify_priority, task_try_id_of]
  rw [Msg.subscript_of_lookup msg "task_id" tv ht]
  simp only [except_ok_bind]
  rw [Msg.subscript_of_lookup msg "try_id" rv hr]
  simp only [except_ok_bind, except_pure_eq]
  simp only [classify_task_info_pure]
  by_cases h1 : tv ∈ acc.st.inserted_tasks <;>
    by_cases h2 : tv.pystr ++ "." ++ rv.pystr ∈ acc.st.inserted_tries
  · simp [h1, h2]
  · cases hd : Dict.get acc.st.deferred_resource_messages (tv.pystr ++ "." ++ rv.pystr) <;>
      simp [h1, h2, hd]
  · simp [h1, h2]
  · cases hd : Dict.get acc.st.deferred_resource_messages (tv.pystr ++ "." ++ rv.pystr) <;>
      simp [h1, h2, hd]

/-- Inversion: a successfully classified priority message is a
WORKFLOW_INFO or a TASK_INFO with present `task_id`/`try_id`, and the
result is the corresponding pure value. -/
theorem classify_priority_ok_cases (acc acc' : PrioAcc) (pm : MessageType × Msg)
    (h : classify_priority acc pm = Except.ok acc') :
    (pm.1 = MessageType.WORKFLOW_INFO ∧ acc' = classify_workflow_pure acc pm.2) ∨
    (pm.1 = MessageType.TASK_INFO ∧ ∃ tv rv,
      Msg.lookup pm.2 "task_id" = some tv ∧ Msg.lookup pm.2 "try_id" = some rv ∧
      acc' = classify_task_info_pure acc pm.2 tv rv) := by
  obtain ⟨mt, msg⟩ := pm
  cases mt with
  | WORKFLOW_INFO =>
    left
    refine ⟨rfl, ?_⟩
    rw [classify_priority_workflow] at h
    exact (Except.ok.inj h).symm
  | TASK_INFO =>
    right
    refine ⟨rfl, ?_⟩
    cases ht : Msg.lookup msg "task_id" with
    | none =>
      exfalso
      simp only [classify_priority, task_try_id_of] at h
      rw [Msg.subscript_of_lookup_none msg "task_id" ht] at h
      simp at h
    | some tv =>
      cases hr : Msg.lookup msg "try_id" with
      | none =>
        exfalso
        simp only [classify_priority, task_try_id_of] at h
        rw [Msg.subscript_of_lookup msg "task_id" tv ht] at h
        simp only [except_ok_bind] at h
        rw [Msg.subscript_of_lookup_none msg "try_id" hr] at h
        simp at h
      | some rv =>
        rw [classify_priority_task_info acc msg tv rv ht hr] at h
        exact ⟨tv, rv, rfl, rfl, (Except.ok.inj h).symm⟩
  | NODE_INFO =>
    exfalso
    simp only [classify_priority] at h
    simp at h
  | RESOURCE_INFO =>
    exfalso
    simp only [classify_priority] at h
    simp at h

/-- Inversion for one resource-message step. -/
theorem handle_resource_ok_cases (s : CoordState) (repro : List Msg) (msg : Msg)
    (out : CoordState × List Msg)
    (h : handle_resource_message (s, repro) msg = Except.ok out) :
    ∃ tv rv fv,
      Msg.lookup msg "task_id" = some tv ∧ Msg.lookup msg "try_id" = some rv ∧
      Msg.lookup msg "first_msg" = some fv ∧
      ((fv.truthy = false ∧ out = (s, repro)) ∨
       (fv.truthy = true ∧ ∃ ts, Msg.lookup msg "timestamp" = some ts ∧
         (let key := tv.pystr ++ "." ++ rv.pystr
          let msg' := Dict.set (Dict.set msg "task_status_name"
            (Value.str States_running_name)) "task_time_running" ts
          (s.inserted_tries.contains key = true ∧ out = (s, repro ++ [msg'])) ∨
          (s.inserted_tries.contains key = false ∧
            out = ({ s with deferred_resource_messages := Dict.set s.deferred_resource_messages key msg' }, repro))))) := by
  cases ht : Msg.lookup msg "task_id" with
  | none =>
    exfalso
    simp only [handle_resource_message, task_try_id_of] at h
    rw [Msg.subscript_of_lookup_none msg "task_id" ht] at h
    simp at h
  | some tv =>
  cases hr : Msg.lookup msg "try_id" with
  | none =>
    exfalso
    simp only [handle_resource_message, task_try_id_of] at h
    rw [Msg.subscript_of_lookup msg "task_id" tv ht] at h
    simp only [except_ok_bind] at h
    rw [Msg.subscript_of_lookup_none msg "try_id" hr] at h
    simp at h
  | some rv =>
  cases hf : Msg.lookup msg "first_msg" with
  | none =>
    exfalso
    simp only [handle_resource_message, task_try_id_of] at h
    rw [Msg.subscript_of_lookup msg "task_id" tv ht] at h
    simp only [except_ok_bind] at h
    rw [Msg.subscript_of_lookup msg "try_id" rv hr] at h
    simp only [except_ok_bind, except_pure_eq] at h
    rw [Msg.subscript_of_lookup_none msg "first_msg" hf] at h
    simp at h
  | some fv =>
  refine ⟨tv, rv, fv, rfl, rfl, rfl, ?_⟩
  simp only [handle_resource_message, task_try_id_of] at h
  rw [Msg.subscript_of_lookup msg "task_id" tv ht] at h
  simp only [except_ok_bind] at h
  rw [Msg.subscript_of_lookup msg "try_id" rv hr] at h
  simp only [except_ok_bind, except_pure_eq] at h
  rw [Msg.subscript_of_lookup msg "first_msg" fv hf] at h
  simp only [except_ok_bind] at h
  cases hfv : fv.truthy with
  | false =>
    left
    rw [hfv] at h
    simp at h
    exact ⟨rfl, h.symm⟩
  | true =>
    right
    rw [hfv] at h
    simp only [if_true] at h
    cases hts : Msg.lookup msg "timestamp" with
    | none =>
      exfalso
      rw [Msg.subscript_of_lookup_none msg "timestamp" hts] at h
      simp at h
    | some ts =>
      rw [Msg.subscript_of_lookup msg "timestamp" ts hts] at h
      simp only [except_ok_bind] at h
      refine ⟨rfl, ts, rfl, ?_⟩
      by_cases hc : s.inserted_tries.contains (tv.pystr ++ "." ++ rv.pystr)
      · left
        rw [if_pos hc] at h
        simp at h
        exact ⟨hc, h.symm⟩
      · right
        rw [if_neg hc] at h
        simp at h
        exact ⟨Bool.eq_false_iff.mpr hc, h.symm⟩

/-- Preservation of an invariant along a monadic fold over a batch. -/
theorem foldlM_ok_induction {σ α : Type} (P : σ → Prop) (f : σ → α → Except String σ)
    (l : List α) (hstep : ∀ s a s', a ∈ l → P s → f s a = Except.ok s' → P s') :
    ∀ s s', P s → l.foldlM f s = Except.ok s' → P s' := by
  induction l with
  | nil =>
    intro s s' hP h
    rw [List.foldlM_nil] at h
    exact (Except.ok.inj h) ▸ hP
  | cons a l ih =>
    intro s s' hP h
    rw [List.foldlM_cons] at h
    cases hf : f s a with
    | error e =>
      rw [hf] at h
      simp at h
    | ok s1 =>
      rw [hf] at h
      simp only [except_ok_bind] at h
      exact ih (fun s a' s' ha' => hstep s a' s' (List.mem_cons_of_mem _ ha')) s1 s'
        (hstep s a s1 (List.mem_cons_self a l) hP hf) h

/- ### C3: at-most-once Task/Try inserts -/

/-- The messages the coordinator has passed to `_insert` against the Task
table, in order. -/
def task_inserted_messages (ops : List DMLOp) : List Msg :=
  (ops.filterMap (fun op => match op with
    | DMLOp.insertOp t msgs => if t = TASK then some msgs else none
    | DMLOp.updateOp _ _ _ => none)).flatten

/-- The messages the coordinator has passed to `_insert` against the Try
table, in order. -/
def try_inserted_messages (ops : List DMLOp) : List Msg :=
  (ops.filterMap (fun op => match op with
    | DMLOp.insertOp t msgs => if t = TRY then some msgs else none
    | DMLOp.updateOp _ _ _ => none)).flatten

theorem task_inserted_messages_append (ops1 ops2 : List DMLOp) :
    task_inserted_messages (ops1 ++ ops2) =
      task_inserted_messages ops1 ++ task_inserted_messages ops2 := by
  unfold task_inserted_messages
  rw [List.filterMap_append, List.flatten_append]

theorem try_inserted_messages_append (ops1 ops2 : List DMLOp) :
    try_inserted_messages (ops1 ++ ops2) =
      try_inserted_messages ops1 ++ try_inserted_messages ops2 := by
  unfold try_inserted_messages
  rw [List.filterMap_append, List.flatten_append]

theorem task_inserted_one_task (msgs : List Msg) :
    task_inserted_messages [DMLOp.insertOp TASK msgs] = msgs := by
  simp [task_inserted_messages]

theorem task_inserted_one_workflow (msgs : List Msg) :
    task_inserted_messages [DMLOp.insertOp WORKFLOW msgs] = [] := by
  simp [task_inserted_messages, WORKFLOW, TASK]

theorem task_inserted_one_try (msgs : List Msg) :
    task_inserted_messages [DMLOp.insertOp TRY msgs] = [] := by
  simp [task_inserted_messages, TRY, TASK]

theorem task_inserted_one_status (msgs : List Msg) :
    task_inserted_messages [DMLOp.insertOp STATUS msgs] = [] := by
  simp [task_inserted_messages, STATUS, TASK]

theorem task_inserted_one_node (msgs : List Msg) :
    task_inserted_messages [DMLOp.insertOp NODE msgs] = [] := by
  simp [task_inserted_messages, NODE, TASK]

theorem task_inserted_one_resource (msgs : List Msg) :
    task_inserted_messages [DMLOp.insertOp RESOURCE msgs] = [] := by
  simp [task_inserted_messages, RESOURCE, TASK]

theorem task_inserted_one_update (t : String) (cols : List String) (msgs : List Msg) :
    task_inserted_messages [DMLOp.updateOp t cols msgs] = [] := rfl

theorem task_inserted_nil : task_inserted_messages [] = [] := rfl

theorem try_inserted_one_try (msgs : List Msg) :
    try_inserted_messages [DMLOp.insertOp TRY msgs] = msgs := by
  simp [try_inserted_messages]

theorem try_inserted_one_workflow (msgs : List Msg) :
    try_inserted_messages [DMLOp.insertOp WORKFLOW msgs] = [] := by
  simp [try_inserted_messages, WORKFLOW, TRY]

theorem try_inserted_one_task (msgs : List Msg) :
    try_inserted_messages [DMLOp.insertOp TASK msgs] = [] := by
  simp [try_inserted_messages, TASK, TRY]

theorem try_inserted_one_status (msgs : List Msg) :
    try_inserted_messages [DMLOp.insertOp STATUS msgs] = [] := by
  simp [try_inserted_messages, STATUS, TRY]

theorem try_inserted_one_node (msgs : List Msg) :
    try_inserted_messages [DMLOp.insertOp NODE msgs] = [] := by
  simp [try_inserted_messages, NODE, TRY]

theorem try_inserted_one_resource (msgs : List Msg) :
    try_inserted_messages [DMLOp.insertOp RESOURCE msgs] = [] := by
  simp [try_inserted_messages, RESOURCE, TRY]

theorem try_inserted_one_update (t : String) (cols : List String) (msgs : List Msg) :
    try_inserted_messages [DMLOp.updateOp t cols msgs] = [] := rfl

theorem try_inserted_nil : try_inserted_messages [] = [] := rfl

/-- `str()` of an optional value (used to read the try key off a logged
message; for messages that passed classification the value is present). -/
def opt_pystr : Option Value → String
  | some v => v.pystr
  | none => ""

/-- The `task_try_id` string of a message, as the classification loop forms
it. -/
def try_key_of (m : Msg) : String :=
  opt_pystr (Msg.lookup m "task_id") ++ "." ++ opt_pystr (Msg.lookup m "try_id")

def tids_of (msgs : List Msg) : List (Option Value) :=
  msgs.map (fun m => Msg.lookup m "task_id")

def tkeys_of (msgs : List Msg) : List String := msgs.map try_key_of

/-- The at-most-once invariant of a coordinator state: the task ids of the
messages ever inserted into Task are pairwise distinct and all recorded in
`inserted_tasks`; the try keys of the messages ever inserted into Try are
pairwise distinct and all recorded in `inserted_tries`. -/
structure InsertOnceInv (s : CoordState) : Prop where
  task_nodup : (tids_of (task_inserted_messages s.ops)).Nodup
  task_mem : ∀ ov ∈ tids_of (task_inserted_messages s.ops),
    ∃ v, ov = some v ∧ v ∈ s.inserted_tasks
  try_nodup : (tkeys_of (try_inserted_messages s.ops)).Nodup
  try_mem : ∀ k ∈ tkeys_of (try_inserted_messages s.ops), k ∈ s.inserted_tries

/-- The invariant during the classification fold: the pending
`task_info_insert_messages` / `try_insert_messages` count as already
inserted. -/
structure PrioInv (acc : PrioAcc) : Prop where
  task_nodup : (tids_of (task_inserted_messages acc.st.ops) ++
    tids_of acc.task_info_insert_messages).Nodup
  task_mem : ∀ ov ∈ tids_of (task_inserted_messages acc.st.ops) ++
    tids_of acc.task_info_insert_messages, ∃ v, ov = some v ∧ v ∈ acc.st.inserted_tasks
  try_nodup : (tkeys_of (try_inserted_messages acc.st.ops) ++
    tkeys_of acc.try_insert_messages).Nodup
  try_mem : ∀ k ∈ tkeys_of (try_inserted_messages acc.st.ops) ++
    tkeys_of acc.try_insert_messages, k ∈ acc.st.inserted_tries

theorem nodup_concat_fresh {α : Type} {l : List α} {a : α}
    (h : l.Nodup) (ha : a ∉ l) : (l ++ [a]).Nodup := by
  rw [List.nodup_append]
  refine ⟨h, List.nodup_singleton a, ?_⟩
  intro x hx hxa
  rcases List.mem_singleton.mp hxa with rfl
  exact ha hx

theorem mem_exists_mono {A : List (Option Value)} {S S' : List Value}
    (h : ∀ ov ∈ A, ∃ v, ov = some v ∧ v ∈ S) (hS : ∀ v ∈ S, v ∈ S') :
    ∀ ov ∈ A, ∃ v, ov = some v ∧ v ∈ S' := by
  intro ov hov
  obtain ⟨v, hv, hvS⟩ := h ov hov
  exact ⟨v, hv, hS v hvS⟩

theorem classify_workflow_pure_frame (acc : PrioAcc) (msg : Msg) :
    task_inserted_messages (classify_workflow_pure acc msg).st.ops =
      task_inserted_messages acc.st.ops ∧
    try_inserted_messages (classify_workflow_pure acc msg).st.ops =
      try_inserted_messages acc.st.ops ∧
    (classify_workflow_pure acc msg).st.inserted_tasks = acc.st.inserted_tasks ∧
    (classify_workflow_pure acc msg).st.inserted_tries = acc.st.inserted_tries ∧
    (classify_workflow_pure acc msg).task_info_insert_messages =
      acc.task_info_insert_messages ∧
    (classify_workflow_pure acc msg).try_insert_messages = acc.try_insert_messages ∧
    (classify_workflow_pure acc msg).st.deferred_resource_messages =
      acc.st.deferred_resource_messages ∧
    (classify_workflow_pure acc msg).reprocessable = acc.reprocessable := by
  unfold classify_workflow_pure
  by_cases hpv : (Msg.lookup msg "python_version").isSome
  · rw [if_pos hpv]
    refine ⟨?_, ?_, rfl, rfl, rfl, rfl, rfl, rfl⟩
    · rw [show ({ acc with st := { dbm_insert acc.st WORKFLOW [msg] with
          workflow_start_message := some msg } } : PrioAcc).st.ops =
          acc.st.ops ++ [DMLOp.insertOp WORKFLOW [msg]] from rfl]
      rw [task_inserted_messages_append, task_inserted_one_workflow, List.append_nil]
    · rw [show ({ acc with st := { dbm_insert acc.st WORKFLOW [msg] with
          workflow_start_message := some msg } } : PrioAcc).st.ops =
          acc.st.ops ++ [DMLOp.insertOp WORKFLOW [msg]] from rfl]
      rw [try_inserted_messages_append, try_inserted_one_workflow, List.append_nil]
  · rw [if_neg hpv]
    refine ⟨?_, ?_, rfl, rfl, rfl, rfl, rfl, rfl⟩
    · rw [show ({ acc with st := { dbm_update acc.st WORKFLOW
          ["run_id", "tasks_failed_count", "tasks_completed_count", "time_completed"]
          [msg] with workflow_end := true } } : PrioAcc).st.ops =
          acc.st.ops ++ [DMLOp.updateOp WORKFLOW
            ["run_id", "tasks_failed_count", "tasks_completed_count", "time_completed"]
            [msg]] from rfl]
      rw [task_inserted_messages_append, task_inserted_one_update, List.append_nil]
    · rw [show ({ acc with st := { dbm_update acc.st WORKFLOW
          ["run_id", "tasks_failed_count", "tasks_completed_count", "time_completed"]
          [msg] with workflow_end := true } } : PrioAcc).st.ops =
          acc.st.ops ++ [DMLOp.updateOp WORKFLOW
            ["run_id", "tasks_failed_count", "tasks_completed_count", "time_completed"]
            [msg]] from rfl]
      rw [try_inserted_messages_append, try_inserted_one_update, List.append_nil]

theorem prio_inv_workflow (acc : PrioAcc) (msg : Msg) (hinv : PrioInv acc) :
    PrioInv (classify_workflow_pure acc msg) := by
  obtain ⟨h1, h2, h3, h4, h5, h6, _, _⟩ := classify_workflow_pure_frame acc msg
  exact ⟨by rw [h1, h5]; exact hinv.task_nodup,
         by rw [h1, h5, h3]; exact hinv.task_mem,
         by rw [h2, h6]; exact hinv.try_nodup,
         by rw [h2, h6, h4]; exact hinv.try_mem⟩

theorem prio_inv_task_info (acc : PrioAcc) (msg : Msg) (tv rv : Value)
    (ht : Msg.lookup msg "task_id" = some tv)
    (hr : Msg.lookup msg "try_id" = some rv)
    (hinv : PrioInv acc) : PrioInv (classify_task_info_pure acc msg tv rv) := by
  have hkey : try_key_of msg = tv.pystr ++ "." ++ rv.pystr := by
    unfold try_key_of
    rw [ht, hr]
    rfl
  -- the task components when the task id is fresh
  have htask_nodup : tv ∉ acc.st.inserted_tasks →
      (tids_of (task_inserted_messages acc.st.ops) ++
        tids_of (acc.task_info_insert_messages ++ [msg])).Nodup := by
    intro h1
    simp only [tids_of, List.map_append]
    rw [← List.append_assoc]
    apply nodup_concat_fresh hinv.task_nodup
    intro hmem
    obtain ⟨v, hv, hvS⟩ := hinv.task_mem _ hmem
    simp only [ht] at hv
    rcases Option.some.inj hv with rfl
    exact h1 hvS
  have htask_mem : ∀ ov ∈ tids_of (task_inserted_messages acc.st.ops) ++
      tids_of (acc.task_info_insert_messages ++ [msg]),
      ∃ v, ov = some v ∧ v ∈ acc.st.inserted_tasks ++ [tv] := by
    intro ov hov
    simp only [tids_of, List.map_append] at hov
    rw [← List.append_assoc] at hov
    rcases List.mem_append.mp hov with hold | hnew
    · exact mem_exists_mono hinv.task_mem
        (fun v hv => List.mem_append_left _ hv) ov hold
    · have heq : ov = Msg.lookup msg "task_id" := by
        simpa using hnew
      rw [heq, ht]
      exact ⟨tv, rfl, List.mem_append_right _ (List.mem_singleton.mpr rfl)⟩
  -- the try components when the try key is fresh
  have htry_nodup : tv.pystr ++ "." ++ rv.pystr ∉ acc.st.inserted_tries →
      (tkeys_of (try_inserted_messages acc.st.ops) ++
        tkeys_of (acc.try_insert_messages ++ [msg])).Nodup := by
    intro h2
    simp only [tkeys_of, List.map_append]
    rw [← List.append_assoc]
    apply nodup_concat_fresh hinv.try_nodup
    intro hmem
    have hmem' : try_key_of msg ∈ tkeys_of (try_inserted_messages acc.st.ops) ++
        tkeys_of acc.try_insert_messages := hmem
    have hS := hinv.try_mem _ hmem'
    rw [hkey] at hS
    exact h2 hS
  have htry_mem : ∀ k ∈ tkeys_of (try_inserted_messages acc.st.ops) ++
      tkeys_of (acc.try_insert_messages ++ [msg]),
      k ∈ acc.st.inserted_tries ++ [tv.pystr ++ "." ++ rv.pystr] := by
    intro k hk
    simp only [tkeys_of, List.map_append] at hk
    rw [← List.append_assoc] at hk
    rcases List.mem_append.mp hk with hold | hnew
    · exact List.mem_append_left _ (hinv.try_mem k hold)
    · have heq : k = try_key_of msg := by
        simpa using hnew
      rw [heq, hkey]
      exact List.mem_append_right _ (List.mem_singleton.mpr rfl)
  by_cases h1 : tv ∈ acc.st.inserted_tasks
  · by_cases h2 : tv.pystr ++ "." ++ rv.pystr ∈ acc.st.inserted_tries
    · simp [classify_task_info_pure, h1, h2]
      exact ⟨hinv.task_nodup, hinv.task_mem, hinv.try_nodup, hinv.try_mem⟩
    · cases hd : Dict.get acc.st.deferred_resource_messages (tv.pystr ++ "." ++ rv.pystr) with
      | some dm =>
        simp [classify_task_info_pure, h1, h2, hd]
        exact ⟨hinv.task_nodup, hinv.task_mem, htry_nodup h2, htry_mem⟩
      | none =>
        simp [classify_task_info_pure, h1, h2, hd]
        exact ⟨hinv.task_nodup, hinv.task_mem, htry_nodup h2, htry_mem⟩
  · by_cases h2 : tv.pystr ++ "." ++ rv.pystr ∈ acc.st.inserted_tries
    · simp [classify_task_info_pure, h1, h2]
      exact ⟨htask_nodup h1, htask_mem, hinv.try_nodup, hinv.try_mem⟩
    · cases hd : Dict.get acc.st.deferred_resource_messages (tv.pystr ++ "." ++ rv.pystr) with
      | some dm =>
        simp [classify_task_info_pure, h1, h2, hd]
        exact ⟨htask_nodup h1, htask_mem, htry_nodup h2, htry_mem⟩
      | none =>
        simp [classify_task_info_pure, h1, h2, hd]
        exact ⟨htask_nodup h1, htask_mem, htry_nodup h2, htry_mem⟩

theorem tids_of_nil : tids_of [] = [] := rfl

theorem tkeys_of_nil : tkeys_of [] = [] := rfl

theorem tids_of_append (l1 l2 : List Msg) :
    tids_of (l1 ++ l2) = tids_of l1 ++ tids_of l2 := by
  unfold tids_of
  exact List.map_append _ l1 l2

theorem tkeys_of_append (l1 l2 : List Msg) :
    tkeys_of (l1 ++ l2) = tkeys_of l1 ++ tkeys_of l2 := by
  unfold tkeys_of
  exact List.map_append _ l1 l2

theorem task_inserted_cons_insert (t : String) (msgs : List Msg) (rest : List DMLOp) :
    task_inserted_messages (DMLOp.insertOp t msgs :: rest) =
      (if t = TASK then msgs else []) ++ task_inserted_messages rest := by
  unfold task_inserted_messages
  by_cases h : t = TASK <;> simp [h]

theorem task_inserted_cons_update (t : String) (cols : List String) (msgs : List Msg)
    (rest : List DMLOp) :
    task_inserted_messages (DMLOp.updateOp t cols msgs :: rest) =
      task_inserted_messages rest := by
  unfold task_inserted_messages
  simp

theorem try_inserted_cons_insert (t : String) (msgs : List Msg) (rest : List DMLOp) :
    try_inserted_messages (DMLOp.insertOp t msgs :: rest) =
      (if t = TRY then msgs else []) ++ try_inserted_messages rest := by
  unfold try_inserted_messages
  by_cases h : t = TRY <;> simp [h]

theorem try_inserted_cons_update (t : String) (cols : List String) (msgs : List Msg)
    (rest : List DMLOp) :
    try_inserted_messages (DMLOp.updateOp t cols msgs :: rest) =
      try_inserted_messages rest := by
  unfold try_inserted_messages
  simp

theorem apply_priority_dml_frame (acc : PrioAcc) :
    task_inserted_messages (apply_priority_dml acc).ops =
      task_inserted_messages acc.st.ops ++ acc.task_info_insert_messages ∧
    try_inserted_messages (apply_priority_dml acc).ops =
      try_inserted_messages acc.st.ops ++ acc.try_insert_messages ∧
    (apply_priority_dml acc).inserted_tasks = acc.st.inserted_tasks ∧
    (apply_priority_dml acc).inserted_tries = acc.st.inserted_tries ∧
    (apply_priority_dml acc).deferred_resource_messages =
      acc.st.deferred_resource_messages ∧
    (apply_priority_dml acc).workflow_start_message = acc.st.workflow_start_message ∧
    (apply_priority_dml acc).workflow_end = acc.st.workflow_end := by
  unfold apply_priority_dml
  by_cases e1 : acc.task_info_insert_messages.isEmpty = true <;>
  by_cases e2 : acc.task_info_update_messages.isEmpty = true <;>
  by_cases e3 : acc.try_insert_messages.isEmpty = true <;>
  by_cases e4 : acc.try_update_messages.isEmpty = true <;>
  simp only [List.isEmpty_iff] at e1 e2 e3 e4 <;>
  simp [e1, e2, e3, e4, List.isEmpty_iff, dbm_insert, dbm_update,
    task_inserted_messages_append, try_inserted_messages_append,
    task_inserted_cons_insert, task_inserted_cons_update, task_inserted_nil,
    try_inserted_cons_insert, try_inserted_cons_update, try_inserted_nil,
    WORKFLOW, TASK, TRY, STATUS, NODE, RESOURCE]

theorem process_priority_batch_inv (s : CoordState)
    (prio : List (MessageType × Msg)) (out : CoordState × List Msg)
    (h : process_priority_batch s prio = Except.ok out)
    (hinv : InsertOnceInv s) : InsertOnceInv out.1 := by
  unfold process_priority_batch at h
  by_cases he : prio.isEmpty = true
  · rw [if_pos he] at h
    simp at h
    rw [← h]
    exact hinv
  · rw [if_neg he] at h
    cases hf : prio.foldlM classify_priority
        { st := s, task_info_update_messages := [], task_info_insert_messages := [],
          task_info_all_messages := [], try_update_messages := [],
          try_insert_messages := [], try_all_messages := [], reprocessable := [] } with
    | error e =>
      rw [hf] at h
      simp at h
    | ok acc =>
      rw [hf] at h
      simp only [except_ok_bind, except_pure_eq] at h
      have hout : out = (apply_priority_dml acc, acc.reprocessable) :=
        (Except.ok.inj h).symm
      have hinv0 : PrioInv
          { st := s, task_info_update_messages := [], task_info_insert_messages := [],
            task_info_all_messages := [], try_update_messages := [],
            try_insert_messages := [], try_all_messages := [], reprocessable := [] } := by
        refine ⟨?_, ?_, ?_, ?_⟩ <;>
          simp only [tids_of_nil, tkeys_of_nil, List.append_nil]
        · exact hinv.task_nodup
        · exact hinv.task_mem
        · exact hinv.try_nodup
        · exact hinv.try_mem
      have hacc : PrioInv acc := by
        refine foldlM_ok_induction PrioInv classify_priority prio ?_ _ acc hinv0 hf
        intro a b a' _ hP hok
        rcases classify_priority_ok_cases a a' b hok with ⟨_, rfl⟩ | ⟨_, tv, rv, ht, hr, rfl⟩
        · exact prio_inv_workflow a b.2 hP
        · exact prio_inv_task_info a b.2 tv rv ht hr hP
      obtain ⟨f1, f2, f3, f4, _, _, _⟩ := apply_priority_dml_frame acc
      rw [hout]
      refine ⟨?_, ?_, ?_, ?_⟩
      · rw [show ((apply_priority_dml acc, acc.reprocessable).1 : CoordState) =
            apply_priority_dml acc from rfl, f1, tids_of_append]
        exact hacc.task_nodup
      · rw [show ((apply_priority_dml acc, acc.reprocessable).1 : CoordState) =
            apply_priority_dml acc from rfl, f1, tids_of_append, f3]
        exact hacc.task_mem
      · rw [show ((apply_priority_dml acc, acc.reprocessable).1 : CoordState) =
            apply_priority_dml acc from rfl, f2, tkeys_of_append]
        exact hacc.try_nodup
      · rw [show ((apply_priority_dml acc, acc.reprocessable).1 : CoordState) =
            apply_priority_dml acc from rfl, f2, tkeys_of_append, f4]
        exact hacc.try_mem

theorem insert_once_node (s : CoordState) (msgs : List Msg)
    (hinv : InsertOnceInv s) : InsertOnceInv (process_node_batch s msgs) := by
  unfold process_node_batch
  by_cases he : msgs.isEmpty = true
  · rw [if_pos he]
    exact hinv
  · rw [if_neg he]
    have hops : (dbm_insert s NODE msgs).ops =
        s.ops ++ [DMLOp.insertOp NODE msgs] := rfl
    refine ⟨?_, ?_, ?_, ?_⟩ <;>
      simp only [hops, task_inserted_messages_append, try_inserted_messages_append,
        task_inserted_one_node, try_inserted_one_node, List.append_nil]
    · exact hinv.task_nodup
    · exact hinv.task_mem
    · exact hinv.try_nodup
    · exact hinv.try_mem

theorem insert_once_resource_batch (s : CoordState) (msgs repro : List Msg)
    (out : CoordState × List Msg)
    (h : process_resource_batch s msgs repro = Except.ok out)
    (hinv : InsertOnceInv s) : InsertOnceInv out.1 := by
  unfold process_resource_batch at h
  by_cases he : msgs.isEmpty = true
  · rw [if_pos he] at h
    simp at h
    rw [← h]
    exact hinv
  · rw [if_neg he] at h
    have hinit : InsertOnceInv ((dbm_insert s RESOURCE msgs, repro) :
        CoordState × List Msg).1 := by
      have hops : (dbm_insert s RESOURCE msgs).ops =
          s.ops ++ [DMLOp.insertOp RESOURCE msgs] := rfl
      refine ⟨?_, ?_, ?_, ?_⟩ <;>
        simp only [show ((dbm_insert s RESOURCE msgs, repro) : CoordState × List Msg).1 =
          dbm_insert s RESOURCE msgs from rfl, hops, task_inserted_messages_append,
          try_inserted_messages_append, task_inserted_one_resource,
          try_inserted_one_resource, List.append_nil]
      · exact hinv.task_nodup
      · exact hinv.task_mem
      · exact hinv.try_nodup
      · exact hinv.try_mem
    refine foldlM_ok_induction (fun x => InsertOnceInv x.1) handle_resource_message msgs
      ?_ _ out hinit h
    intro x m x' _ hP hok
    obtain ⟨sx, rx⟩ := x
    rcases handle_resource_ok_cases sx rx m x' hok with ⟨tv, rv, fv, _, _, _, hcase⟩
    rcases hcase with ⟨_, rfl⟩ | ⟨_, ts, _, hcase2⟩
    · exact hP
    · rcases hcase2 with ⟨_, rfl⟩ | ⟨_, rfl⟩
      · exact hP
      · exact ⟨hP.task_nodup, hP.task_mem, hP.try_nodup, hP.try_mem⟩

theorem insert_once_apply_repro (s : CoordState) (repro : List Msg)
    (hinv : InsertOnceInv s) : InsertOnceInv (apply_reprocessable s repro) := by
  unfold apply_reprocessable
  by_cases he : repro.isEmpty = true
  · rw [if_pos he]
    exact hinv
  · rw [if_neg he]
    have hops : (dbm_update (dbm_insert s STATUS repro) TRY
        ["task_time_running", "run_id", "task_id", "try_id", "hostname"] repro).ops =
        (s.ops ++ [DMLOp.insertOp STATUS repro]) ++
          [DMLOp.updateOp TRY
            ["task_time_running", "run_id", "task_id", "try_id", "hostname"] repro] := rfl
    refine ⟨?_, ?_, ?_, ?_⟩ <;>
      simp only [hops, task_inserted_messages_append, try_inserted_messages_append,
        task_inserted_one_status, try_inserted_one_status,
        task_inserted_one_update, try_inserted_one_update, List.append_nil]
    · exact hinv.task_nodup
    · exact hinv.task_mem
    · exact hinv.try_nodup
    · exact hinv.try_mem

theorem insert_once_iteration (s s' : CoordState) (it : Iter)
    (h : process_iteration s it = Except.ok s') (hinv : InsertOnceInv s) :
    InsertOnceInv s' := by
  unfold process_iteration at h
  cases hp : process_priority_batch s it.prio with
  | error e =>
    rw [hp] at h
    simp at h
  | ok x1 =>
    rw [hp] at h
    simp only [except_ok_bind] at h
    cases hrb : process_resource_batch (process_node_batch x1.1 it.node) it.res x1.2 with
    | error e =>
      rw [hrb] at h
      simp at h
    | ok x3 =>
      rw [hrb] at h
      simp only [except_ok_bind, except_pure_eq] at h
      have hs' : s' = apply_reprocessable x3.1 x3.2 := (Except.ok.inj h).symm
      rw [hs']
      exact insert_once_apply_repro _ _
        (insert_once_resource_batch _ _ _ _ hrb
          (insert_once_node _ _ (process_priority_batch_inv _ _ _ hp hinv)))

theorem insert_once_initial : InsertOnceInv initial_state := by
  refine ⟨?_, ?_, ?_, ?_⟩ <;>
    simp [initial_state, task_inserted_nil, try_inserted_nil, tids_of_nil, tkeys_of_nil]

theorem insert_once_trace (iters : List Iter) (s s' : CoordState)
    (h : run_trace s iters = Except.ok s') (hinv : InsertOnceInv s) :
    InsertOnceInv s' :=
  foldlM_ok_induction InsertOnceInv process_iteration iters
    (fun a b a' _ hP hok => insert_once_iteration a a' b hok hP) s s' hinv h

/-- C3: over any message trace the coordinator processes successfully, no
two messages it ever passes to an insert on the Task table agree on
(task_id, run_id), and no two messages it ever passes to an insert on the
Try table agree on (try_id, task_id, run_id): the `inserted_tasks` and
`inserted_tries` sets route every repeated key to the update path, so the
bulk inserts can never raise a primary-key conflict on Task or Try. -/
theorem c3_at_most_once_task_try_inserts (iters : List Iter) (s : CoordState)
    (h : run_trace initial_state iters = Except.ok s) :
    (task_inserted_messages s.ops).Pairwise (fun m1 m2 =>
      ¬ (Msg.lookup m1 "task_id" = Msg.lookup m2 "task_id" ∧
         Msg.lookup m1 "run_id" = Msg.lookup m2 "run_id")) ∧
    (try_inserted_messages s.ops).Pairwise (fun m1 m2 =>
      ¬ (Msg.lookup m1 "try_id" = Msg.lookup m2 "try_id" ∧
         Msg.lookup m1 "task_id" = Msg.lookup m2 "task_id" ∧
         Msg.lookup m1 "run_id" = Msg.lookup m2 "run_id")) := by
  have hinv := insert_once_trace iters initial_state s h insert_once_initial
  constructor
  · have hnd : (tids_of (task_inserted_messages s.ops)).Nodup := hinv.task_nodup
    unfold tids_of at hnd
    have hpw := (List.pairwise_map).mp hnd
    exact hpw.imp (fun hne hconj => hne (by rw [hconj.1]))
  · have hnd : (tkeys_of (try_inserted_messages s.ops)).Nodup := hinv.try_nodup
    unfold tkeys_of at hnd
    have hpw := (List.pairwise_map).mp hnd
    refine hpw.imp (fun hne hconj => hne ?_)
    unfold try_key_of
    rw [hconj.2.1, hconj.1]

/-- Witness for C3 at a concrete input: a trace with one TASK_INFO message. -/
theorem c3_at_most_once_task_try_inserts_witness :
    (task_inserted_messages (match run_trace initial_state
        [{ prio := [(MessageType.TASK_INFO,
            [("task_id", Value.int 1), ("try_id", Value.int 0),
             ("run_id", Value.str "r1")])], node := [], res := [] }] with
      | Except.ok s => s
      | Except.error _ => initial_state).ops).Pairwise (fun m1 m2 =>
      ¬ (Msg.lookup m1 "task_id" = Msg.lookup m2 "task_id" ∧
         Msg.lookup m1 "run_id" = Msg.lookup m2 "run_id")) ∧
    (try_inserted_messages (match run_trace initial_state
        [{ prio := [(MessageType.TASK_INFO,
            [("task_id", Value.int 1), ("try_id", Value.int 0),
             ("run_id", Value.str "r1")])], node := [], res := [] }] with
      | Except.ok s => s
      | Except.error _ => initial_state).ops).Pairwise (fun m1 m2 =>
      ¬ (Msg.lookup m1 "try_id" = Msg.lookup m2 "try_id" ∧
         Msg.lookup m1 "task_id" = Msg.lookup m2 "task_id" ∧
         Msg.lookup m1 "run_id" = Msg.lookup m2 "run_id")) := by
  exact c3_at_most_once_task_try_inserts
    [{ prio := [(MessageType.TASK_INFO,
        [("task_id", Value.int 1), ("try_id", Value.int 0),
         ("run_id", Value.str "r1")])], node := [], res := [] }] _ rfl

/- ### The decimal `task_try_id` key is injective on integer-valued ids

The classification loop identifies a try by the string
`str(task_id) + "." + str(try_id)`.  For integer ids this encoding is
injective: the decimal digits contain no dot, so the split at the first dot
is unique, and the decimal representation itself is injective. -/

def decimalDigits : List Char := ['0', '1', '2', '3', '4', '5', '6', '7', '8', '9']

theorem digitChar_mem_decimal (n : Nat) (h : n < 10) :
    Nat.digitChar n ∈ decimalDigits := by
  interval_cases n <;> decide

theorem digitChar_inj_decimal (a b : Nat) (ha : a < 10) (hb : b < 10)
    (h : Nat.digitChar a = Nat.digitChar b) : a = b := by
  interval_cases a <;> interval_cases b <;> revert h <;> decide

/-- Reference big-endian decimal digit list of a natural number. -/
def decRepr (n : Nat) : List Char :=
  if n < 10 then [Nat.digitChar n]
  else decRepr (n / 10) ++ [Nat.digitChar (n % 10)]
decreasing_by
  exact Nat.div_lt_self (by omega) (by omega)

theorem decRepr_eq (n : Nat) : decRepr n =
    if n < 10 then [Nat.digitChar n]
    else decRepr (n / 10) ++ [Nat.digitChar (n % 10)] := by
  rw [decRepr]

theorem toDigitsCore_shift (fuel : Nat) :
    ∀ (n : Nat) (acc : List Char), n < fuel →
      Nat.toDigitsCore 10 fuel n acc = Nat.toDigitsCore 10 fuel n [] ++ acc := by
  induction fuel with
  | zero =>
    intro n acc h
    omega
  | succ fuel ih =>
    intro n acc h
    simp only [Nat.toDigitsCore]
    by_cases h0 : n / 10 = 0
    · simp [h0]
    · simp only [h0, if_false]
      have hlt : n / 10 < fuel := by omega
      rw [ih (n / 10) (Nat.digitChar (n % 10) :: acc) hlt,
          ih (n / 10) [Nat.digitChar (n % 10)] hlt, List.append_assoc]
      rfl

theorem toDigitsCore_decRepr (fuel : Nat) :
    ∀ n : Nat, n < fuel → Nat.toDigitsCore 10 fuel n [] = decRepr n := by
  induction fuel with
  | zero =>
    intro n h
    omega
  | succ fuel ih =>
    intro n h
    simp only [Nat.toDigitsCore]
    by_cases h0 : n / 10 = 0
    · have hn : n < 10 := by omega
      rw [decRepr_eq n, if_pos hn, Nat.mod_eq_of_lt hn]
      simp [h0]
    · have hge : ¬ n < 10 := by omega
      have hlt : n / 10 < fuel := by omega
      simp only [h0, if_false]
      rw [toDigitsCore_shift fuel (n / 10) [Nat.digitChar (n % 10)] hlt,
          ih (n / 10) hlt, decRepr_eq n, if_neg hge]

theorem repr_data_eq_decRepr (n : Nat) : (Nat.repr n).data = decRepr n := by
  show (Nat.toDigits 10 n).asString.data = decRepr n
  show Nat.toDigitsCore 10 (n + 1) n [] = decRepr n
  exact toDigitsCore_decRepr (n + 1) n (Nat.lt_succ_self n)

theorem decRepr_chars (n : Nat) : ∀ c ∈ decRepr n, c ∈ decimalDigits := by
  induction n using Nat.strong_induction_on with
  | _ n ih =>
    intro c hc
    rw [decRepr_eq n] at hc
    by_cases h : n < 10
    · rw [if_pos h] at hc
      rcases List.mem_singleton.mp hc with rfl
      exact digitChar_mem_decimal n h
    · rw [if_neg h] at hc
      rcases List.mem_append.mp hc with h1 | h1
      · exact ih (n / 10) (Nat.div_lt_self (by omega) (by omega)) c h1
      · rcases List.mem_singleton.mp h1 with rfl
        exact digitChar_mem_decimal _ (Nat.mod_lt _ (by omega))

theorem decRepr_ne_nil (n : Nat) : decRepr n ≠ [] := by
  rw [decRepr_eq n]
  by_cases h : n < 10
  · rw [if_pos h]
    simp
  · rw [if_neg h]
    simp

theorem decRepr_inj : ∀ m n : Nat, decRepr m = decRepr n → m = n := by
  intro m
  induction m using Nat.strong_induction_on with
  | _ m ih =>
    intro n h
    by_cases hm : m < 10 <;> by_cases hn : n < 10
    · rw [decRepr_eq m, if_pos hm, decRepr_eq n, if_pos hn] at h
      exact digitChar_inj_decimal m n hm hn (List.cons.inj h).1
    · exfalso
      rw [decRepr_eq m, if_pos hm, decRepr_eq n, if_neg hn] at h
      have hlen := congrArg List.length h
      simp only [List.length_append, List.length_singleton] at hlen
      have hpos : 0 < (decRepr (n / 10)).length :=
        List.length_pos.mpr (decRepr_ne_nil (n / 10))
      omega
    · exfalso
      rw [decRepr_eq m, if_neg hm, decRepr_eq n, if_pos hn] at h
      have hlen := congrArg List.length h
      simp only [List.length_append, List.length_singleton] at hlen
      have hpos : 0 < (decRepr (m / 10)).length :=
        List.length_pos.mpr (decRepr_ne_nil (m / 10))
      omega
    · rw [decRepr_eq m, if_neg hm, decRepr_eq n, if_neg hn] at h
      have hrev := congrArg List.reverse h
      simp only [List.reverse_append, List.reverse_singleton, List.singleton_append] at hrev
      obtain ⟨hhead, htail⟩ := List.cons.inj hrev
      have hdiv : m / 10 = n / 10 :=
        ih (m / 10) (Nat.div_lt_self (by omega) (by omega)) (n / 10)
          (List.reverse_injective htail)
      have hmod : m % 10 = n % 10 :=
        digitChar_inj_decimal _ _ (Nat.mod_lt _ (by omega)) (Nat.mod_lt _ (by omega)) hhead
      have hm10 := Nat.div_add_mod m 10
      have hn10 := Nat.div_add_mod n 10
      omega

theorem natRepr_data_inj (m n : Nat)
    (h : (Nat.repr m).data = (Nat.repr n).data) : m = n := by
  apply decRepr_inj
  rw [← repr_data_eq_decRepr, ← repr_data_eq_decRepr, h]

theorem dot_not_mem_natRepr (n : Nat) : '.' ∉ (Nat.repr n).data := by
  rw [repr_data_eq_decRepr]
  intro hc
  have hmem := decRepr_chars n _ hc
  revert hmem
  decide

theorem dash_not_mem_natRepr (n : Nat) : '-' ∉ (Nat.repr n).data := by
  rw [repr_data_eq_decRepr]
  intro hc
  have hmem := decRepr_chars n _ hc
  revert hmem
  decide

theorem toString_int_ofNat (m : Nat) : toString (Int.ofNat m) = Nat.repr m := rfl

theorem toString_int_negSucc (m : Nat) :
    toString (Int.negSucc m) = "-" ++ Nat.repr (m + 1) := rfl

theorem string_data_append (a b : String) : (a ++ b).data = a.data ++ b.data := rfl

theorem dot_not_mem_toString_int (i : Int) : '.' ∉ (toString i).data := by
  cases i with
  | ofNat m =>
    rw [toString_int_ofNat]
    exact dot_not_mem_natRepr m
  | negSucc m =>
    rw [toString_int_negSucc, string_data_append]
    intro hc
    rcases List.mem_append.mp hc with h1 | h1
    · revert h1
      decide
    · exact dot_not_mem_natRepr _ h1

theorem toString_int_data_inj (i j : Int)
    (h : (toString i).data = (toString j).data) : i = j := by
  cases i with
  | ofNat m =>
    cases j with
    | ofNat n =>
      rw [toString_int_ofNat, toString_int_ofNat] at h
      exact congrArg Int.ofNat (natRepr_data_inj m n h)
    | negSucc n =>
      exfalso
      rw [toString_int_ofNat, toString_int_negSucc, string_data_append] at h
      have hdash : '-' ∈ (Nat.repr m).data := by
        rw [h]
        exact List.mem_append_left _ (by decide)
      exact dash_not_mem_natRepr m hdash
  | negSucc m =>
    cases j with
    | ofNat n =>
      exfalso
      rw [toString_int_negSucc, toString_int_ofNat, string_data_append] at h
      have hdash : '-' ∈ (Nat.repr n).data := by
        rw [← h]
        exact List.mem_append_left _ (by decide)
      exact dash_not_mem_natRepr n hdash
    | negSucc n =>
      rw [toString_int_negSucc, toString_int_negSucc,
        string_data_append, string_data_append] at h
      have hdata : (Nat.repr (m + 1)).data = (Nat.repr (n + 1)).data := by
        have hd : (("-" : String)).data = ['-'] := rfl
        rw [hd] at h
        simpa using h
      have hmn := natRepr_data_inj (m + 1) (n + 1) hdata
      have hmn' : m = n := by omega
      exact congrArg Int.negSucc hmn'

theorem split_at_dot : ∀ (l1 : List Char) (r1 l2 r2 : List Char), '.' ∉ l1 → '.' ∉ r1 →
    l1 ++ '.' :: l2 = r1 ++ '.' :: r2 → l1 = r1 ∧ l2 = r2 := by
  intro l1
  induction l1 with
  | nil =>
    intro r1 l2 r2 _ h2 h
    cases r1 with
    | nil =>
      simp only [List.nil_append] at h
      exact ⟨rfl, (List.cons.inj h).2⟩
    | cons c r =>
      exfalso
      simp only [List.nil_append, List.cons_append] at h
      obtain ⟨hc, _⟩ := List.cons.inj h
      exact h2 (hc ▸ List.mem_cons_self c r)
  | cons a l ih =>
    intro r1 l2 r2 h1 h2 h
    cases r1 with
    | nil =>
      exfalso
      simp only [List.nil_append, List.cons_append] at h
      obtain ⟨hc, _⟩ := List.cons.inj h
      exact h1 (hc ▸ List.mem_cons_self a l)
    | cons c r =>
      simp only [List.cons_append] at h
      obtain ⟨hc, hrest⟩ := List.cons.inj h
      have hih := ih r l2 r2 (fun hm => h1 (List.mem_cons_of_mem a hm))
        (fun hm => h2 (List.mem_cons_of_mem c hm)) hrest
      exact ⟨by rw [hc, hih.1], hih.2⟩

/-- The `task_try_id` encoding is injective on integer ids. -/
theorem int_key_inj (a b a' b' : Int)
    (h : (Value.int a).pystr ++ "." ++ (Value.int b).pystr =
         (Value.int a').pystr ++ "." ++ (Value.int b').pystr) :
    a = a' ∧ b = b' := by
  have hd := congrArg String.data h
  simp only [Value.pystr] at hd
  rw [string_data_append, string_data_append, string_data_append,
    string_data_append] at hd
  have hdot : (("." : String)).data = ['.'] := rfl
  rw [hdot, List.append_assoc, List.append_assoc, List.singleton_append,
    List.singleton_append] at hd
  have hsplit := split_at_dot _ _ _ _ (dot_not_mem_toString_int a)
    (dot_not_mem_toString_int a') hd
  exact ⟨toString_int_data_inj a a' hsplit.1, toString_int_data_inj b b' hsplit.2⟩

/- ### C2: referential closure -/

/-- The `task_try_id` string of a pair of integer ids. -/
def int_key (a b : Int) : String :=
  (Value.int a).pystr ++ "." ++ (Value.int b).pystr

theorem int_key_fst_inj (a b a' b' : Int) (h : int_key a b = int_key a' b') :
    a = a' := (int_key_inj a b a' b' h).1

theorem dict_mem_erase_sub {α : Type} (d : Dict α) (k : String) (p : String × α)
    (h : p ∈ Dict.erase d k) : p ∈ d := by
  induction d with
  | nil => simp [Dict.erase] at h
  | cons q rest ih =>
    obtain ⟨k0, v0⟩ := q
    by_cases h0 : k0 = k
    · rw [show Dict.erase ((k0, v0) :: rest) k = rest from by
        rw [Dict.erase, if_pos h0]] at h
      exact List.mem_cons_of_mem _ h
    · rw [show Dict.erase ((k0, v0) :: rest) k = (k0, v0) :: Dict.erase rest k from by
        rw [Dict.erase, if_neg h0]] at h
      rcases List.mem_cons.mp h with rfl | h1
      · exact List.mem_cons_self _ _
      · exact List.mem_cons_of_mem _ (ih h1)

theorem dict_mem_set_cases {α : Type} (d : Dict α) (k : String) (v : α) (p : String × α)
    (h : p ∈ Dict.set d k v) : p = (k, v) ∨ p ∈ d := by
  induction d with
  | nil =>
    rcases List.mem_singleton.mp (by simpa [Dict.set] using h) with rfl
    exact Or.inl rfl
  | cons q rest ih =>
    obtain ⟨k0, v0⟩ := q
    by_cases h0 : k0 = k
    · rw [show Dict.set ((k0, v0) :: rest) k v = (k, v) :: rest from by
        rw [Dict.set, if_pos h0]] at h
      rcases List.mem_cons.mp h with rfl | h1
      · exact Or.inl rfl
      · exact Or.inr (List.mem_cons_of_mem _ h1)
    · rw [show Dict.set ((k0, v0) :: rest) k v = (k0, v0) :: Dict.set rest k v from by
        rw [Dict.set, if_neg h0]] at h
      rcases List.mem_cons.mp h with rfl | h1
      · exact Or.inr (List.mem_cons_self _ _)
      · rcases ih h1 with h2 | h2
        · exact Or.inl h2
        · exact Or.inr (List.mem_cons_of_mem _ h2)

theorem updateRow_pk_get (pk : List String) (mapping row : Row) (k : String)
    (hk : k ∈ pk) : Dict.get (updateRow pk mapping row) k = Dict.get row k := by
  rw [updateRow_get]
  by_cases h : pkMatch pk mapping row
  · rw [if_pos h]
    have hall := List.all_eq_true.mp h k hk
    have heq : Dict.get row k = Dict.get mapping k := by
      exact eq_of_beq hall
    cases hrow : Dict.get row k with
    | none => rfl
    | some v =>
      rw [Option.map_some']
      rw [hrow] at heq
      rw [← heq]
      rfl
  · rw [if_neg h]

theorem bulkUpdate_back (pk : List String) (mappings : List Row) :
    ∀ (table : List Row), ∀ row' ∈ bulkUpdate pk table mappings,
      ∃ row ∈ table, ∀ k ∈ pk, Dict.get row' k = Dict.get row k := by
  induction mappings with
  | nil =>
    intro table row' h
    exact ⟨row', by simpa [bulkUpdate] using h, fun k _ => rfl⟩
  | cons m ms ih =>
    intro table row' h
    have h' : row' ∈ bulkUpdate pk (table.map (updateRow pk m)) ms := by
      simpa [bulkUpdate] using h
    obtain ⟨row1, hrow1, hpres⟩ := ih (table.map (updateRow pk m)) row' h'
    obtain ⟨row0, hrow0, rfl⟩ := List.mem_map.mp hrow1
    refine ⟨row0, hrow0, fun k hk => ?_⟩
    rw [hpres k hk, updateRow_pk_get pk m row0 k hk]

theorem bulkUpdate_fwd (pk : List String) (mappings : List Row) :
    ∀ (table : List Row), ∀ row ∈ table,
      ∃ row' ∈ bulkUpdate pk table mappings, ∀ k ∈ pk, Dict.get row' k = Dict.get row k := by
  induction mappings with
  | nil =>
    intro table row h
    exact ⟨row, by simpa [bulkUpdate] using h, fun k _ => rfl⟩
  | cons m ms ih =>
    intro table row h
    have h1 : updateRow pk m row ∈ table.map (updateRow pk m) :=
      List.mem_map_of_mem _ h
    obtain ⟨row', hrow', hpres⟩ := ih _ _ h1
    refine ⟨row', by simpa [bulkUpdate] using hrow', fun k hk => ?_⟩
    rw [hpres k hk, updateRow_pk_get pk m row k hk]

/-- Well-formedness of a priority item for the referential-closure claim:
TASK_INFO messages carry integer task/try ids and the trace's single run
id. -/
def WF_priority (vR : Value) (pm : MessageType × Msg) : Prop :=
  pm.1 = MessageType.TASK_INFO →
    (∃ a : Int, Msg.lookup pm.2 "task_id" = some (Value.int a)) ∧
    (∃ b : Int, Msg.lookup pm.2 "try_id" = some (Value.int b)) ∧
    Msg.lookup pm.2 "run_id" = some vR

/-- Well-formedness of a resource message for the referential-closure
claim. -/
def WF_resource (vR : Value) (m : Msg) : Prop :=
  (∃ a : Int, Msg.lookup m "task_id" = some (Value.int a)) ∧
  (∃ b : Int, Msg.lookup m "try_id" = some (Value.int b)) ∧
  Msg.lookup m "run_id" = some vR

/-- The referential-closure invariant of a coordinator state, for a single
run id `vR`. -/
structure RefInv (vR : Value) (s : CoordState) : Prop where
  status_ref : ∀ row ∈ s.db.status, ∃ trow ∈ s.db.task,
    Dict.get trow "task_id" = Dict.get row "task_id" ∧
    Dict.get trow "run_id" = Dict.get row "run_id"
  try_ref : ∀ row ∈ s.db.try_, ∃ trow ∈ s.db.task,
    Dict.get trow "task_id" = Dict.get row "task_id" ∧
    Dict.get trow "run_id" = Dict.get row "run_id"
  tasks_row : ∀ v ∈ s.inserted_tasks, ∃ trow ∈ s.db.task,
    Dict.get trow "task_id" = some (some v) ∧
    Dict.get trow "run_id" = some (some vR)
  tries_key : ∀ k ∈ s.inserted_tries, ∃ a b : Int,
    k = int_key a b ∧ Value.int a ∈ s.inserted_tasks
  deferred_wf : ∀ p ∈ s.deferred_resource_messages, ∃ a b : Int,
    Msg.lookup p.2 "task_id" = some (Value.int a) ∧
    Msg.lookup p.2 "run_id" = some vR ∧ p.1 = int_key a b

/-- The property of a reprocessable list relative to the sets of a state. -/
def ReproOK (vR : Value) (s : CoordState) (repro : List Msg) : Prop :=
  ∀ m ∈ repro, ∃ a : Int, Msg.lookup m "task_id" = some (Value.int a) ∧
    Value.int a ∈ s.inserted_tasks ∧ Msg.lookup m "run_id" = some vR

/-- The referential-closure invariant during the classification fold: rows
for freshly recorded task ids may still be pending in
`task_info_insert_messages`. -/
structure RefPrioInv (vR : Value) (acc : PrioAcc) : Prop where
  status_ref : ∀ row ∈ acc.st.db.status, ∃ trow ∈ acc.st.db.task,
    Dict.get trow "task_id" = Dict.get row "task_id" ∧
    Dict.get trow "run_id" = Dict.get row "run_id"
  try_ref : ∀ row ∈ acc.st.db.try_, ∃ trow ∈ acc.st.db.task,
    Dict.get trow "task_id" = Dict.get row "task_id" ∧
    Dict.get trow "run_id" = Dict.get row "run_id"
  tasks_pending : ∀ v ∈ acc.st.inserted_tasks,
    (∃ trow ∈ acc.st.db.task,
      Dict.get trow "task_id" = some (some v) ∧
      Dict.get trow "run_id" = some (some vR)) ∨
    (∃ m ∈ acc.task_info_insert_messages,
      Msg.lookup m "task_id" = some v ∧ Msg.lookup m "run_id" = some vR)
  tries_key : ∀ k ∈ acc.st.inserted_tries, ∃ a b : Int,
    k = int_key a b ∧ Value.int a ∈ acc.st.inserted_tasks
  deferred_wf : ∀ p ∈ acc.st.deferred_resource_messages, ∃ a b : Int,
    Msg.lookup p.2 "task_id" = some (Value.int a) ∧
    Msg.lookup p.2 "run_id" = some vR ∧ p.1 = int_key a b
  all_msgs : ∀ m ∈ acc.task_info_all_messages, ∃ a : Int,
    Msg.lookup m "task_id" = some (Value.int a) ∧
    Value.int a ∈ acc.st.inserted_tasks ∧ Msg.lookup m "run_id" = some vR
  try_ins_msgs : ∀ m ∈ acc.try_insert_messages, ∃ a : Int,
    Msg.lookup m "task_id" = some (Value.int a) ∧
    Value.int a ∈ acc.st.inserted_tasks ∧ Msg.lookup m "run_id" = some vR
  repro_msgs : ∀ m ∈ acc.reprocessable, ∃ a : Int,
    Msg.lookup m "task_id" = some (Value.int a) ∧
    Value.int a ∈ acc.st.inserted_tasks ∧ Msg.lookup m "run_id" = some vR

theorem apply_priority_dml_db (acc : PrioAcc) :
    (apply_priority_dml acc).db.status =
      acc.st.db.status ++ generate_mappings status_columns none acc.task_info_all_messages ∧
    (apply_priority_dml acc).db.task =
      bulkUpdate task_pk
        (acc.st.db.task ++ generate_mappings task_columns none acc.task_info_insert_messages)
        (generate_mappings task_columns
          (some ["task_time_submitted", "task_time_returned", "run_id", "task_id",
                 "task_fail_count"])
          acc.task_info_update_messages) ∧
    (apply_priority_dml acc).db.try_ =
      bulkUpdate try_pk
        (acc.st.db.try_ ++ generate_mappings try_columns none acc.try_insert_messages)
        (generate_mappings try_columns
          (some ["task_time_returned", "run_id", "task_id", "try_id", "task_fail_history",
                 "task_time_submitted", "task_try_time_returned"])
          acc.try_update_messages) := by
  unfold apply_priority_dml
  by_cases e1 : acc.task_info_insert_messages.isEmpty = true <;>
  by_cases e2 : acc.task_info_update_messages.isEmpty = true <;>
  by_cases e3 : acc.try_insert_messages.isEmpty = true <;>
  by_cases e4 : acc.try_update_messages.isEmpty = true <;>
  simp only [List.isEmpty_iff] at e1 e2 e3 e4 <;>
  simp [e1, e2, e3, e4, List.isEmpty_iff, dbm_insert, dbm_update,
    insertInto_workflow, insertInto_task, insertInto_try, insertInto_status,
    updateInto_workflow, updateInto_task, updateInto_try,
    generate_mappings, bulkUpdate]

theorem dict_get_mem {α : Type} (d : Dict α) (k : String) (v : α)
    (h : Dict.get d k = some v) : (k, v) ∈ d := by
  induction d with
  | nil => simp [Dict.get] at h
  | cons q rest ih =>
    obtain ⟨k0, v0⟩ := q
    by_cases h0 : k0 = k
    · subst h0
      rw [Dict.get_cons, if_pos rfl] at h
      rcases Option.some.inj h with rfl
      exact List.mem_cons_self _ _
    · rw [Dict.get_cons, if_neg h0] at h
      exact List.mem_cons_of_mem _ (ih h)

theorem ref_prio_inv_workflow (vR : Value) (acc : PrioAcc) (msg : Msg)
    (hinv : RefPrioInv vR acc) : RefPrioInv vR (classify_workflow_pure acc msg) := by
  obtain ⟨_, _, f3, f4, f5, f6, f7, f8⟩ := classify_workflow_pure_frame acc msg
  have hdb : (classify_workflow_pure acc msg).st.db.task = acc.st.db.task ∧
      (classify_workflow_pure acc msg).st.db.status = acc.st.db.status ∧
      (classify_workflow_pure acc msg).st.db.try_ = acc.st.db.try_ ∧
      (classify_workflow_pure acc msg).task_info_all_messages =
        acc.task_info_all_messages := by
    unfold classify_workflow_pure
    by_cases hpv : (Msg.lookup msg "python_version").isSome
    · rw [if_pos hpv]
      exact ⟨rfl, rfl, rfl, rfl⟩
    · rw [if_neg hpv]
      exact ⟨rfl, rfl, rfl, rfl⟩
  obtain ⟨d1, d2, d3, d4⟩ := hdb
  refine ⟨?_, ?_, ?_, ?_, ?_, ?_, ?_, ?_⟩
  · rw [d1, d2]
    exact hinv.status_ref
  · rw [d1, d3]
    exact hinv.try_ref
  · rw [d1, f3, f5]
    exact hinv.tasks_pending
  · rw [f3, f4]
    exact hinv.tries_key
  · rw [f7]
    exact hinv.deferred_wf
  · rw [f3, d4]
    exact hinv.all_msgs
  · rw [f3, f6]
    exact hinv.try_ins_msgs
  · rw [f3, f8]
    exact hinv.repro_msgs

theorem ref_prio_inv_task_info (vR : Value) (acc : PrioAcc) (msg : Msg) (a b : Int)
    (ht : Msg.lookup msg "task_id" = some (Value.int a))
    (hr : Msg.lookup msg "try_id" = some (Value.int b))
    (hrun : Msg.lookup msg "run_id" = some vR)
    (hinv : RefPrioInv vR acc) :
    RefPrioInv vR (classify_task_info_pure acc msg (Value.int a) (Value.int b)) := by
  have htasks_pending' : ∀ v ∈ acc.st.inserted_tasks ++ [Value.int a],
      (∃ trow ∈ acc.st.db.task,
        Dict.get trow "task_id" = some (some v) ∧
        Dict.get trow "run_id" = some (some vR)) ∨
      (∃ m ∈ acc.task_info_insert_messages ++ [msg],
        Msg.lookup m "task_id" = some v ∧ Msg.lookup m "run_id" = some vR) := by
    intro v hv
    rcases List.mem_append.mp hv with hv | hv
    · rcases hinv.tasks_pending v hv with hrow | ⟨m, hm, hm1, hm2⟩
      · exact Or.inl hrow
      · exact Or.inr ⟨m, List.mem_append_left _ hm, hm1, hm2⟩
    · rcases List.mem_singleton.mp hv with rfl
      exact Or.inr ⟨msg, List.mem_append_right _ (List.mem_singleton.mpr rfl), ht, hrun⟩
  have hall' : ∀ S' : List Value, (∀ v ∈ acc.st.inserted_tasks, v ∈ S') →
      Value.int a ∈ S' →
      ∀ m ∈ acc.task_info_all_messages ++ [msg], ∃ a0 : Int,
        Msg.lookup m "task_id" = some (Value.int a0) ∧ Value.int a0 ∈ S' ∧
        Msg.lookup m "run_id" = some vR := by
    intro S' hmono ha m hm
    rcases List.mem_append.mp hm with hm | hm
    · obtain ⟨a0, h1, h2, h3⟩ := hinv.all_msgs m hm
      exact ⟨a0, h1, hmono _ h2, h3⟩
    · rcases List.mem_singleton.mp hm with rfl
      exact ⟨a, ht, ha, hrun⟩
  have htryins' : ∀ S' : List Value, (∀ v ∈ acc.st.inserted_tasks, v ∈ S') →
      Value.int a ∈ S' →
      ∀ m ∈ acc.try_insert_messages ++ [msg], ∃ a0 : Int,
        Msg.lookup m "task_id" = some (Value.int a0) ∧ Value.int a0 ∈ S' ∧
        Msg.lookup m "run_id" = some vR := by
    intro S' hmono ha m hm
    rcases List.mem_append.mp hm with hm | hm
    · obtain ⟨a0, h1, h2, h3⟩ := hinv.try_ins_msgs m hm
      exact ⟨a0, h1, hmono _ h2, h3⟩
    · rcases List.mem_singleton.mp hm with rfl
      exact ⟨a, ht, ha, hrun⟩
  have htryins_mono : ∀ S' : List Value, (∀ v ∈ acc.st.inserted_tasks, v ∈ S') →
      ∀ m ∈ acc.try_insert_messages, ∃ a0 : Int,
        Msg.lookup m "task_id" = some (Value.int a0) ∧ Value.int a0 ∈ S' ∧
        Msg.lookup m "run_id" = some vR := by
    intro S' hmono m hm
    obtain ⟨a0, h1, h2, h3⟩ := hinv.try_ins_msgs m hm
    exact ⟨a0, h1, hmono _ h2, h3⟩
  have hrepro_mono : ∀ S' : List Value, (∀ v ∈ acc.st.inserted_tasks, v ∈ S') →
      ∀ m ∈ acc.reprocessable, ∃ a0 : Int,
        Msg.lookup m "task_id" = some (Value.int a0) ∧ Value.int a0 ∈ S' ∧
        Msg.lookup m "run_id" = some vR := by
    intro S' hmono m hm
    obtain ⟨a0, h1, h2, h3⟩ := hinv.repro_msgs m hm
    exact ⟨a0, h1, hmono _ h2, h3⟩
  have htrieskey' : ∀ S' : List Value, (∀ v ∈ acc.st.inserted_tasks, v ∈ S') →
      Value.int a ∈ S' →
      ∀ k ∈ acc.st.inserted_tries ++ [(Value.int a).pystr ++ "." ++ (Value.int b).pystr],
        ∃ a0 b0 : Int, k = int_key a0 b0 ∧ Value.int a0 ∈ S' := by
    intro S' hmono ha k hk
    rcases List.mem_append.mp hk with hk | hk
    · obtain ⟨a0, b0, h1, h2⟩ := hinv.tries_key k hk
      exact ⟨a0, b0, h1, hmono _ h2⟩
    · rcases List.mem_singleton.mp hk with rfl
      exact ⟨a, b, rfl, ha⟩
  have htrieskey_mono : ∀ S' : List Value, (∀ v ∈ acc.st.inserted_tasks, v ∈ S') →
      ∀ k ∈ acc.st.inserted_tries, ∃ a0 b0 : Int,
        k = int_key a0 b0 ∧ Value.int a0 ∈ S' := by
    intro S' hmono k hk
    obtain ⟨a0, b0, h1, h2⟩ := hinv.tries_key k hk
    exact ⟨a0, b0, h1, hmono _ h2⟩
  have hdef_erase : ∀ p ∈ Dict.erase acc.st.deferred_resource_messages
      ((Value.int a).pystr ++ "." ++ (Value.int b).pystr), ∃ a0 b0 : Int,
      Msg.lookup p.2 "task_id" = some (Value.int a0) ∧
      Msg.lookup p.2 "run_id" = some vR ∧ p.1 = int_key a0 b0 :=
    fun p hp => hinv.deferred_wf p (dict_mem_erase_sub _ _ p hp)
  have hpop : ∀ (dm : Msg), Dict.get acc.st.deferred_resource_messages
        ((Value.int a).pystr ++ "." ++ (Value.int b).pystr) = some dm →
      ∀ S' : List Value, Value.int a ∈ S' →
      ∃ a0 : Int, Msg.lookup dm "task_id" = some (Value.int a0) ∧
        Value.int a0 ∈ S' ∧ Msg.lookup dm "run_id" = some vR := by
    intro dm hdm S' ha
    obtain ⟨a0, b0, h1, h2, h3⟩ := hinv.deferred_wf _ (dict_get_mem _ _ _ hdm)
    have hk : int_key a b = int_key a0 b0 := h3
    have ha0 : a0 = a := (int_key_fst_inj a b a0 b0 hk).symm
    subst ha0
    exact ⟨a0, h1, ha, h2⟩
  have hmono_id : ∀ v ∈ acc.st.inserted_tasks, v ∈ acc.st.inserted_tasks := fun v hv => hv
  have hmono_app : ∀ v ∈ acc.st.inserted_tasks,
      v ∈ acc.st.inserted_tasks ++ [Value.int a] :=
    fun v hv => List.mem_append_left _ hv
  have hmem_app : Value.int a ∈ acc.st.inserted_tasks ++ [Value.int a] :=
    List.mem_append_right _ (List.mem_singleton.mpr rfl)
  by_cases h1 : Value.int a ∈ acc.st.inserted_tasks
  · by_cases h2 : (Value.int a).pystr ++ "." ++ (Value.int b).pystr ∈ acc.st.inserted_tries
    · simp [classify_task_info_pure, h1, h2]
      exact ⟨hinv.status_ref, hinv.try_ref, hinv.tasks_pending, hinv.tries_key,
        hinv.deferred_wf, hall' _ hmono_id h1, hinv.try_ins_msgs, hinv.repro_msgs⟩
    · cases hd : Dict.get acc.st.deferred_resource_messages
          ((Value.int a).pystr ++ "." ++ (Value.int b).pystr) with
      | some dm =>
        simp [classify_task_info_pure, h1, h2, hd]
        refine ⟨hinv.status_ref, hinv.try_ref, hinv.tasks_pending,
          htrieskey' _ hmono_id h1, hdef_erase, hall' _ hmono_id h1,
          htryins' _ hmono_id h1, ?_⟩
        intro m hm
        rcases List.mem_append.mp hm with hm | hm
        · exact hinv.repro_msgs m hm
        · rcases List.mem_singleton.mp hm with rfl
          exact hpop m hd _ h1
      | none =>
        simp [classify_task_info_pure, h1, h2, hd]
        exact ⟨hinv.status_ref, hinv.try_ref, hinv.tasks_pending,
          htrieskey' _ hmono_id h1, hinv.deferred_wf, hall' _ hmono_id h1,
          htryins' _ hmono_id h1, hinv.repro_msgs⟩
  · by_cases h2 : (Value.int a).pystr ++ "." ++ (Value.int b).pystr ∈ acc.st.inserted_tries
    · simp [classify_task_info_pure, h1, h2]
      exact ⟨hinv.status_ref, hinv.try_ref, htasks_pending',
        htrieskey_mono _ hmono_app, hinv.deferred_wf, hall' _ hmono_app hmem_app,
        htryins_mono _ hmono_app, hrepro_mono _ hmono_app⟩
    · cases hd : Dict.get acc.st.deferred_resource_messages
          ((Value.int a).pystr ++ "." ++ (Value.int b).pystr) with
      | some dm =>
        simp [classify_task_info_pure, h1, h2, hd]
        refine ⟨hinv.status_ref, hinv.try_ref, htasks_pending',
          htrieskey' _ hmono_app hmem_app, hdef_erase, hall' _ hmono_app hmem_app,
          htryins' _ hmono_app hmem_app, ?_⟩
        intro m hm
        rcases List.mem_append.mp hm with hm | hm
        · exact hrepro_mono _ hmono_app m hm
        · rcases List.mem_singleton.mp hm with rfl
          exact hpop m hd _ hmem_app
      | none =>
        simp [classify_task_info_pure, h1, h2, hd]
        exact ⟨hinv.status_ref, hinv.try_ref, htasks_pending',
          htrieskey' _ hmono_app hmem_app, hinv.deferred_wf, hall' _ hmono_app hmem_app,
          htryins' _ hmono_app hmem_app, hrepro_mono _ hmono_app⟩

theorem ref_prio_inv_step (vR : Value) (acc acc' : PrioAcc) (pm : MessageType × Msg)
    (hwf : WF_priority vR pm) (hinv : RefPrioInv vR acc)
    (h : classify_priority acc pm = Except.ok acc') : RefPrioInv vR acc' := by
  rcases classify_priority_ok_cases acc acc' pm h with ⟨_, rfl⟩ | ⟨hmt, tv, rv, ht, hr, rfl⟩
  · exact ref_prio_inv_workflow vR acc pm.2 hinv
  · obtain ⟨⟨a, ha⟩, ⟨b, hb⟩, hrun⟩ := hwf hmt
    have htv : tv = Value.int a := by
      rw [ht] at ha
      exact Option.some.inj ha
    have hrv : rv = Value.int b := by
      rw [hr] at hb
      exact Option.some.inj hb
    subst htv
    subst hrv
    exact ref_prio_inv_task_info vR acc pm.2 a b ht hr hrun hinv

theorem task_row_final (vR : Value) (acc : PrioAcc) (hinv : RefPrioInv vR acc)
    (v : Value) (hv : v ∈ acc.st.inserted_tasks) :
    ∃ trow ∈ (apply_priority_dml acc).db.task,
      Dict.get trow "task_id" = some (some v) ∧
      Dict.get trow "run_id" = some (some vR) := by
  obtain ⟨_, htask, _⟩ := apply_priority_dml_db acc
  rcases hinv.tasks_pending v hv with ⟨trow, htrow, h1, h2⟩ | ⟨m, hm, h1, h2⟩
  · obtain ⟨trow', htrow', hpres⟩ := bulkUpdate_fwd task_pk _ _ trow
      (List.mem_append_left _ htrow)
    refine ⟨trow', by rw [htask]; exact htrow', ?_, ?_⟩
    · rw [hpres "task_id" (by simp [task_pk]), h1]
    · rw [hpres "run_id" (by simp [task_pk]), h2]
  · have hrow : row_of task_columns m ∈
        generate_mappings task_columns none acc.task_info_insert_messages := by
      simp only [generate_mappings]
      exact List.mem_map_of_mem _ hm
    obtain ⟨trow', htrow', hpres⟩ := bulkUpdate_fwd task_pk _ _ _
      (List.mem_append_right acc.st.db.task hrow)
    refine ⟨trow', by rw [htask]; exact htrow', ?_, ?_⟩
    · rw [hpres "task_id" (by simp [task_pk]), row_of_get,
        if_pos (show "task_id" ∈ task_columns by decide), h1]
    · rw [hpres "run_id" (by simp [task_pk]), row_of_get,
        if_pos (show "run_id" ∈ task_columns by decide), h2]

theorem ref_inv_after_dml (vR : Value) (acc : PrioAcc) (hinv : RefPrioInv vR acc) :
    RefInv vR (apply_priority_dml acc) ∧
    ReproOK vR (apply_priority_dml acc) acc.reprocessable := by
  obtain ⟨hstatus, htask, htry⟩ := apply_priority_dml_db acc
  obtain ⟨_, _, hins_tasks, hins_tries, hdef, _, _⟩ := apply_priority_dml_frame acc
  constructor
  · refine ⟨?_, ?_, ?_, ?_, ?_⟩
    · intro row hrow
      rw [hstatus] at hrow
      rcases List.mem_append.mp hrow with h | h
      · obtain ⟨trow, htrow, h1, h2⟩ := hinv.status_ref row h
        obtain ⟨trow', htrow', hpres⟩ := bulkUpdate_fwd task_pk _ _ trow
          (List.mem_append_left _ htrow)
        refine ⟨trow', by rw [htask]; exact htrow', ?_, ?_⟩
        · rw [hpres "task_id" (by simp [task_pk]), h1]
        · rw [hpres "run_id" (by simp [task_pk]), h2]
      · simp only [generate_mappings] at h
        obtain ⟨m, hm, rfl⟩ := List.mem_map.mp h
        obtain ⟨a, hmt, hma, hmr⟩ := hinv.all_msgs m hm
        obtain ⟨trow', htrow', h1', h2'⟩ := task_row_final vR acc hinv (Value.int a) hma
        refine ⟨trow', htrow', ?_, ?_⟩
        · rw [h1', row_of_get, if_pos (show "task_id" ∈ status_columns by decide), hmt]
        · rw [h2', row_of_get, if_pos (show "run_id" ∈ status_columns by decide), hmr]
    · intro row' hrow'
      rw [htry] at hrow'
      obtain ⟨row, hrow, hpres⟩ := bulkUpdate_back try_pk _ _ row' hrow'
      rcases List.mem_append.mp hrow with h | h
      · obtain ⟨trow, htrow, h1, h2⟩ := hinv.try_ref row h
        obtain ⟨trow', htrow', hpres2⟩ := bulkUpdate_fwd task_pk _ _ trow
          (List.mem_append_left _ htrow)
        refine ⟨trow', by rw [htask]; exact htrow', ?_, ?_⟩
        · rw [hpres2 "task_id" (by simp [task_pk]), h1,
            hpres "task_id" (by simp [try_pk])]
        · rw [hpres2 "run_id" (by simp [task_pk]), h2,
            hpres "run_id" (by simp [try_pk])]
      · simp only [generate_mappings] at h
        obtain ⟨m, hm, rfl⟩ := List.mem_map.mp h
        obtain ⟨a, hmt, hma, hmr⟩ := hinv.try_ins_msgs m hm
        obtain ⟨trow', htrow', h1', h2'⟩ := task_row_final vR acc hinv (Value.int a) hma
        refine ⟨trow', htrow', ?_, ?_⟩
        · rw [h1', hpres "task_id" (by simp [try_pk]), row_of_get,
            if_pos (show "task_id" ∈ try_columns by decide), hmt]
        · rw [h2', hpres "run_id" (by simp [try_pk]), row_of_get,
            if_pos (show "run_id" ∈ try_columns by decide), hmr]
    · intro v hv
      rw [hins_tasks] at hv
      exact task_row_final vR acc hinv v hv
    · intro k hk
      rw [hins_tries] at hk
      obtain ⟨a, b, h1, h2⟩ := hinv.tries_key k hk
      exact ⟨a, b, h1, by rw [hins_tasks]; exact h2⟩
    · intro p hp
      rw [hdef] at hp
      exact hinv.deferred_wf p hp
  · intro m hm
    obtain ⟨a, h1, h2, h3⟩ := hinv.repro_msgs m hm
    exact ⟨a, h1, by rw [hins_tasks]; exact h2, h3⟩

theorem ref_inv_priority_batch (vR : Value) (s : CoordState)
    (prio : List (MessageType × Msg)) (out : CoordState × List Msg)
    (hwf : ∀ pm ∈ prio, WF_priority vR pm) (hinv : RefInv vR s)
    (h : process_priority_batch s prio = Except.ok out) :
    RefInv vR out.1 ∧ ReproOK vR out.1 out.2 := by
  unfold process_priority_batch at h
  by_cases he : prio.isEmpty = true
  · rw [if_pos he] at h
    simp at h
    rw [← h]
    refine ⟨hinv, ?_⟩
    intro m hm
    simp at hm
  · rw [if_neg he] at h
    cases hf : prio.foldlM classify_priority
        { st := s, task_info_update_messages := [], task_info_insert_messages := [],
          task_info_all_messages := [], try_update_messages := [],
          try_insert_messages := [], try_all_messages := [], reprocessable := [] } with
    | error e =>
      rw [hf] at h
      simp at h
    | ok acc =>
      rw [hf] at h
      simp only [except_ok_bind, except_pure_eq] at h
      have hout : out = (apply_priority_dml acc, acc.reprocessable) :=
        (Except.ok.inj h).symm
      have hinv0 : RefPrioInv vR
          { st := s, task_info_update_messages := [], task_info_insert_messages := [],
            task_info_all_messages := [], try_update_messages := [],
            try_insert_messages := [], try_all_messages := [], reprocessable := [] } := by
        refine ⟨hinv.status_ref, hinv.try_ref, ?_, hinv.tries_key, hinv.deferred_wf,
          ?_, ?_, ?_⟩
        · intro v hv
          exact Or.inl (hinv.tasks_row v hv)
        · intro m hm
          simp at hm
        · intro m hm
          simp at hm
        · intro m hm
          simp at hm
      have hacc : RefPrioInv vR acc := by
        refine foldlM_ok_induction (RefPrioInv vR) classify_priority prio ?_ _ acc hinv0 hf
        intro a b a' hb hP hok
        exact ref_prio_inv_step vR a a' b (hwf b hb) hP hok
      rw [hout]
      exact ref_inv_after_dml vR acc hacc

theorem ref_inv_node_batch (vR : Value) (s : CoordState) (node : List Msg)
    (hinv : RefInv vR s) : RefInv vR (process_node_batch s node) ∧
    (process_node_batch s node).inserted_tasks = s.inserted_tasks := by
  unfold process_node_batch
  by_cases he : node.isEmpty = true
  · rw [if_pos he]
    exact ⟨hinv, rfl⟩
  · rw [if_neg he]
    have hfields : (dbm_insert s NODE node).db.status = s.db.status ∧
        (dbm_insert s NODE node).db.task = s.db.task ∧
        (dbm_insert s NODE node).db.try_ = s.db.try_ ∧
        (dbm_insert s NODE node).inserted_tasks = s.inserted_tasks ∧
        (dbm_insert s NODE node).inserted_tries = s.inserted_tries ∧
        (dbm_insert s NODE node).deferred_resource_messages =
          s.deferred_resource_messages := by
      simp [dbm_insert, insertInto_node]
    obtain ⟨d1, d2, d3, d4, d5, d6⟩ := hfields
    refine ⟨⟨?_, ?_, ?_, ?_, ?_⟩, d4⟩
    · rw [d1, d2]
      exact hinv.status_ref
    · rw [d3, d2]
      exact hinv.try_ref
    · rw [d4, d2]
      exact hinv.tasks_row
    · rw [d5, d4]
      exact hinv.tries_key
    · rw [d6]
      exact hinv.deferred_wf

theorem lookup_set_other (m : Msg) (k k' : String) (v : Value) (hne : k ≠ k') :
    Msg.lookup (Dict.set m k v) k' = Msg.lookup m k' := by
  simp [Msg.lookup, Dict.get_set, hne]

theorem ref_resource_step (vR : Value) (x : CoordState × List Msg) (msg : Msg)
    (x' : CoordState × List Msg) (hwf : WF_resource vR msg)
    (hinv : RefInv vR x.1 ∧ ReproOK vR x.1 x.2)
    (h : handle_resource_message x msg = Except.ok x') :
    RefInv vR x'.1 ∧ ReproOK vR x'.1 x'.2 := by
  obtain ⟨s, repro⟩ := x
  obtain ⟨hI, hR⟩ := hinv
  obtain ⟨⟨a, ha⟩, ⟨b, hb⟩, hrun⟩ := hwf
  obtain ⟨tv, rv, fv, ht, hr, hf, hcases⟩ := handle_resource_ok_cases s repro msg x' h
  have htv : tv = Value.int a := by
    rw [ht] at ha
    exact Option.some.inj ha
  have hrv : rv = Value.int b := by
    rw [hr] at hb
    exact Option.some.inj hb
  subst htv
  subst hrv
  rcases hcases with ⟨_, rfl⟩ | ⟨_, ts, hts, hcase⟩
  · exact ⟨hI, hR⟩
  · simp only at hcase
    rcases hcase with ⟨hc, rfl⟩ | ⟨hc, rfl⟩
    · refine ⟨hI, ?_⟩
      intro m hm
      rcases List.mem_append.mp hm with hm | hm
      · exact hR m hm
      · rcases List.mem_singleton.mp hm with rfl
        have hkey : (Value.int a).pystr ++ "." ++ (Value.int b).pystr ∈
            s.inserted_tries := by
          simpa using hc
        obtain ⟨a0, b0, hk, ha0⟩ := hI.tries_key _ hkey
        have haa : a = a0 := int_key_fst_inj a b a0 b0 hk
        refine ⟨a, ?_, ?_, ?_⟩
        · rw [lookup_set_other _ _ _ _ (by decide),
            lookup_set_other _ _ _ _ (by decide)]
          exact ht
        · rw [haa]
          exact ha0
        · rw [lookup_set_other _ _ _ _ (by decide),
            lookup_set_other _ _ _ _ (by decide)]
          exact hrun
    · refine ⟨⟨hI.status_ref, hI.try_ref, hI.tasks_row, hI.tries_key, ?_⟩, hR⟩
      intro p hp
      rcases dict_mem_set_cases _ _ _ p hp with rfl | hp'
      · refine ⟨a, b, ?_, ?_, rfl⟩
        · rw [lookup_set_other _ _ _ _ (by decide),
            lookup_set_other _ _ _ _ (by decide)]
          exact ht
        · rw [lookup_set_other _ _ _ _ (by decide),
            lookup_set_other _ _ _ _ (by decide)]
          exact hrun
      · exact hI.deferred_wf p hp'

theorem ref_inv_resource_batch (vR : Value) (s : CoordState) (res : List Msg)
    (repro : List Msg) (out : CoordState × List Msg)
    (hwf : ∀ m ∈ res, WF_resource vR m)
    (hinv : RefInv vR s) (hrep : ReproOK vR s repro)
    (h : process_resource_batch s res repro = Except.ok out) :
    RefInv vR out.1 ∧ ReproOK vR out.1 out.2 := by
  unfold process_resource_batch at h
  by_cases he : res.isEmpty = true
  · rw [if_pos he] at h
    simp at h
    rw [← h]
    exact ⟨hinv, hrep⟩
  · rw [if_neg he] at h
    simp only at h
    have hfields : (dbm_insert s RESOURCE res).db.status = s.db.status ∧
        (dbm_insert s RESOURCE res).db.task = s.db.task ∧
        (dbm_insert s RESOURCE res).db.try_ = s.db.try_ ∧
        (dbm_insert s RESOURCE res).inserted_tasks = s.inserted_tasks ∧
        (dbm_insert s RESOURCE res).inserted_tries = s.inserted_tries ∧
        (dbm_insert s RESOURCE res).deferred_resource_messages =
          s.deferred_resource_messages := by
      simp [dbm_insert, insertInto_resource]
    obtain ⟨d1, d2, d3, d4, d5, d6⟩ := hfields
    have hinv1 : RefInv vR (dbm_insert s RESOURCE res) := by
      refine ⟨?_, ?_, ?_, ?_, ?_⟩
      · rw [d1, d2]
        exact hinv.status_ref
      · rw [d3, d2]
        exact hinv.try_ref
      · rw [d4, d2]
        exact hinv.tasks_row
      · rw [d5, d4]
        exact hinv.tries_key
      · rw [d6]
        exact hinv.deferred_wf
    have hrep1 : ReproOK vR (dbm_insert s RESOURCE res) repro := by
      intro m hm
      obtain ⟨a, h1, h2, h3⟩ := hrep m hm
      exact ⟨a, h1, by rw [d4]; exact h2, h3⟩
    refine foldlM_ok_induction
      (fun x => RefInv vR x.1 ∧ ReproOK vR x.1 x.2)
      handle_resource_message res ?_ _ out ⟨hinv1, hrep1⟩ h
    intro x m x' hm hP hok
    exact ref_resource_step vR x m x' (hwf m hm) hP hok

theorem ref_inv_reprocessable (vR : Value) (s : CoordState) (repro : List Msg)
    (hinv : RefInv vR s) (hrep : ReproOK vR s repro) :
    RefInv vR (apply_reprocessable s repro) := by
  unfold apply_reprocessable
  by_cases he : repro.isEmpty = true
  · rw [if_pos he]
    exact hinv
  · rw [if_neg he]
    have hfields :
        (dbm_update (dbm_insert s STATUS repro) TRY
          ["task_time_running", "run_id", "task_id", "try_id", "hostname"] repro).db.status =
          s.db.status ++ generate_mappings status_columns none repro ∧
        (dbm_update (dbm_insert s STATUS repro) TRY
          ["task_time_running", "run_id", "task_id", "try_id", "hostname"] repro).db.task =
          s.db.task ∧
        (dbm_update (dbm_insert s STATUS repro) TRY
          ["task_time_running", "run_id", "task_id", "try_id", "hostname"] repro).db.try_ =
          bulkUpdate try_pk s.db.try_
            (generate_mappings try_columns
              (some ["task_time_running", "run_id", "task_id", "try_id", "hostname"])
              repro) ∧
        (dbm_update (dbm_insert s STATUS repro) TRY
          ["task_time_running", "run_id", "task_id", "try_id", "hostname"] repro).inserted_tasks =
          s.inserted_tasks ∧
        (dbm_update (dbm_insert s STATUS repro) TRY
          ["task_time_running", "run_id", "task_id", "try_id", "hostname"] repro).inserted_tries =
          s.inserted_tries ∧
        (dbm_update (dbm_insert s STATUS repro) TRY
          ["task_time_running", "run_id", "task_id", "try_id", "hostname"] repro).deferred_resource_messages =
          s.deferred_resource_messages := by
      simp [dbm_insert, dbm_update, insertInto_status, updateInto_try]
    obtain ⟨d1, d2, d3, d4, d5, d6⟩ := hfields
    refine ⟨?_, ?_, ?_, ?_, ?_⟩
    · intro row hrow
      rw [d1] at hrow
      rw [d2]
      rcases List.mem_append.mp hrow with h | h
      · exact hinv.status_ref row h
      · simp only [generate_mappings] at h
        obtain ⟨m, hm, rfl⟩ := List.mem_map.mp h
        obtain ⟨a, hmt, hma, hmr⟩ := hrep m hm
        obtain ⟨trow, htrow, h1, h2⟩ := hinv.tasks_row (Value.int a) hma
        refine ⟨trow, htrow, ?_, ?_⟩
        · rw [h1, row_of_get, if_pos (show "task_id" ∈ status_columns by decide), hmt]
        · rw [h2, row_of_get, if_pos (show "run_id" ∈ status_columns by decide), hmr]
    · intro row' hrow'
      rw [d3] at hrow'
      rw [d2]
      obtain ⟨row, hrow, hpres⟩ := bulkUpdate_back try_pk _ _ row' hrow'
      obtain ⟨trow, htrow, h1, h2⟩ := hinv.try_ref row hrow
      refine ⟨trow, htrow, ?_, ?_⟩
      · rw [h1, hpres "task_id" (by simp [try_pk])]
      · rw [h2, hpres "run_id" (by simp [try_pk])]
    · intro v hv
      rw [d4] at hv
      rw [d2]
      exact hinv.tasks_row v hv
    · intro k hk
      rw [d5] at hk
      rw [d4]
      exact hinv.tries_key k hk
    · intro p hp
      rw [d6] at hp
      exact hinv.deferred_wf p hp

/-- Well-formedness of one drained iteration for the referential-closure
claim. -/
def WF_iter (vR : Value) (it : Iter) : Prop :=
  (∀ pm ∈ it.prio, WF_priority vR pm) ∧ (∀ m ∈ it.res, WF_resource vR m)

theorem ref_inv_iteration (vR : Value) (s : CoordState) (it : Iter) (s' : CoordState)
    (hwf : WF_iter vR it) (hinv : RefInv vR s)
    (h : process_iteration s it = Except.ok s') : RefInv vR s' := by
  unfold process_iteration at h
  cases h1 : process_priority_batch s it.prio with
  | error e =>
    rw [h1] at h
    simp at h
  | ok x1 =>
    rw [h1] at h
    simp only [except_ok_bind] at h
    obtain ⟨hI1, hR1⟩ := ref_inv_priority_batch vR s it.prio x1 hwf.1 hinv h1
    obtain ⟨hI2, hfr⟩ := ref_inv_node_batch vR x1.1 it.node hI1
    have hR2 : ReproOK vR (process_node_batch x1.1 it.node) x1.2 := by
      intro m hm
      obtain ⟨a, ha1, ha2, ha3⟩ := hR1 m hm
      exact ⟨a, ha1, by rw [hfr]; exact ha2, ha3⟩
    cases h3 : process_resource_batch (process_node_batch x1.1 it.node) it.res x1.2 with
    | error e =>
      rw [h3] at h
      simp at h
    | ok x3 =>
      rw [h3] at h
      simp only [except_ok_bind, except_pure_eq] at h
      obtain ⟨hI3, hR3⟩ := ref_inv_resource_batch vR _ it.res x1.2 x3 hwf.2 hI2 hR2 h3
      rw [← Except.ok.inj h]
      exact ref_inv_reprocessable vR x3.1 x3.2 hI3 hR3

theorem ref_inv_initial (vR : Value) : RefInv vR initial_state := by
  refine ⟨?_, ?_, ?_, ?_, ?_⟩ <;> intro x hx <;> simp [initial_state] at hx

theorem ref_inv_trace (vR : Value) (iters : List Iter) (s' : CoordState)
    (hwf : ∀ it ∈ iters, WF_iter vR it)
    (h : run_trace initial_state iters = Except.ok s') : RefInv vR s' := by
  unfold run_trace at h
  refine foldlM_ok_induction (RefInv vR) process_iteration iters ?_ _ s'
    (ref_inv_initial vR) h
  intro s it s2 hit hP hok
  exact ref_inv_iteration vR s it s2 (hwf it hit) hP hok

/-- C2 (counterexample): the Resource conjunct of the claim is false.  A
trace consisting of a single resource message with `first_msg` false reaches
a state whose Resource table is non-empty while the Try table is empty, so
the Resource row's (try_id, task_id, run_id) appears in no Try row: the
batch insert into Resource at the top of the resource block happens before
any Try row for that task exists. -/
theorem c2_counterexample :
    (run_trace initial_state
      [{ prio := [], node := [],
         res := [[("task_id", Value.int 1), ("try_id", Value.int 0),
                  ("run_id", Value.str "r1"), ("first_msg", Value.bool false)]] }]).map
      (fun s => (s.db.resource.isEmpty, s.db.try_.isEmpty)) =
      Except.ok (false, true) := by
  rfl

/-- C2: referential closure, amended.  Over any finite trace of drained
batches that the coordinator processes without error, provided every
TASK_INFO priority message and every resource message carries integer
task/try ids and the trace's single run id, every Status row's
(task_id, run_id) appears in a Task row and every Try row's
(task_id, run_id) appears in a Task row.  The original claim's third
conjunct — every Resource row's (try_id, task_id, run_id) appears in Try —
is refuted by `c2_counterexample`. -/
theorem c2_referential_closure (vR : Value) (iters : List Iter) (s' : CoordState)
    (hwf : ∀ it ∈ iters, WF_iter vR it)
    (h : run_trace initial_state iters = Except.ok s') :
    (∀ row ∈ s'.db.status, ∃ trow ∈ s'.db.task,
      Dict.get trow "task_id" = Dict.get row "task_id" ∧
      Dict.get trow "run_id" = Dict.get row "run_id") ∧
    (∀ row ∈ s'.db.try_, ∃ trow ∈ s'.db.task,
      Dict.get trow "task_id" = Dict.get row "task_id" ∧
      Dict.get trow "run_id" = Dict.get row "run_id") := by
  have hI := ref_inv_trace vR iters s' hwf h
  exact ⟨hI.status_ref, hI.try_ref⟩

/-- Witness for C2 at a concrete input: a single-iteration trace carrying
one well-formed TASK_INFO message. -/
theorem c2_referential_closure_witness :
    (∀ row ∈ (match run_trace initial_state
        [{ prio := [(MessageType.TASK_INFO,
            [("task_id", Value.int 2), ("try_id", Value.int 0),
             ("run_id", Value.str "r2")])], node := [], res := [] }] with
      | Except.ok s => s
      | Except.error _ => initial_state).db.status,
      ∃ trow ∈ (match run_trace initial_state
        [{ prio := [(MessageType.TASK_INFO,
            [("task_id", Value.int 2), ("try_id", Value.int 0),
             ("run_id", Value.str "r2")])], node := [], res := [] }] with
      | Except.ok s => s
      | Except.error _ => initial_state).db.task,
        Dict.get trow "task_id" = Dict.get row "task_id" ∧
        Dict.get trow "run_id" = Dict.get row "run_id") ∧
    (∀ row ∈ (match run_trace initial_state
        [{ prio := [(MessageType.TASK_INFO,
            [("task_id", Value.int 2), ("try_id", Value.int 0),
             ("run_id", Value.str "r2")])], node := [], res := [] }] with
      | Except.ok s => s
      | Except.error _ => initial_state).db.try_,
      ∃ trow ∈ (match run_trace initial_state
        [{ prio := [(MessageType.TASK_INFO,
            [("task_id", Value.int 2), ("try_id", Value.int 0),
             ("run_id", Value.str "r2")])], node := [], res := [] }] with
      | Except.ok s => s
      | Except.error _ => initial_state).db.task,
        Dict.get trow "task_id" = Dict.get row "task_id" ∧
        Dict.get trow "run_id" = Dict.get row "run_id") := by
  refine c2_referential_closure (Value.str "r2")
    [{ prio := [(MessageType.TASK_INFO,
        [("task_id", Value.int 2), ("try_id", Value.int 0),
         ("run_id", Value.str "r2")])], node := [], res := [] }] _ ?_ rfl
  intro it hit
  rcases List.mem_singleton.mp hit with rfl
  constructor
  · intro pm hpm
    rcases List.mem_singleton.mp hpm with rfl
    exact fun _ => ⟨⟨2, rfl⟩, ⟨0, rfl⟩, rfl⟩
  · intro m hm
    simp at hm

/- ### C1: deferred promotion — one TASK_INFO and one first_msg resource
message for the same (task_id, try_id), in any interleaving

The proof runs a small phase automaton: between iterations the coordinator
state is, up to the op log, exactly one of four canonical states (neither
message processed, only the TASK_INFO, only the resource message — held in
`deferred_resource_messages` —, or both). -/

/-- The promoted form of a `first_msg` resource message: the source sets
`msg['task_status_name'] = States.running.name` and
`msg['task_time_running'] = msg['timestamp']` before routing the message. -/
def promoted_msg (rm : Msg) (ts : Value) : Msg :=
  Dict.set (Dict.set rm "task_status_name" (Value.str States_running_name))
    "task_time_running" ts

/-- Canonical state after only the TASK_INFO message has been processed. -/
def stateT (tm : Msg) (a b : Int) (o : List DMLOp) : CoordState :=
  { db := { workflow := [], task := [row_of task_columns tm],
            try_ := [row_of try_columns tm], status := [row_of status_columns tm],
            node := [], resource := [] },
    inserted_tasks := [Value.int a], inserted_tries := [int_key a b],
    deferred_resource_messages := [], workflow_start_message := none,
    workflow_end := false, ops := o }

/-- Canonical state after only the resource message has been processed: a
Resource row exists and the promoted message is parked in
`deferred_resource_messages`. -/
def stateR (rm : Msg) (a b : Int) (ts : Value) (o : List DMLOp) : CoordState :=
  { db := { workflow := [], task := [], try_ := [], status := [],
            node := [], resource := [row_of resource_columns rm] },
    inserted_tasks := [], inserted_tries := [],
    deferred_resource_messages := [(int_key a b, promoted_msg rm ts)],
    workflow_start_message := none, workflow_end := false, ops := o }

/-- Canonical state after both messages have been processed, in either
order. -/
def stateF (tm rm : Msg) (a b : Int) (ts : Value) (o : List DMLOp) : CoordState :=
  { db := { workflow := [],
            task := [row_of task_columns tm],
            try_ := bulkUpdate try_pk [row_of try_columns tm]
              [row_of ["task_time_running", "run_id", "task_id", "try_id", "hostname"]
                (promoted_msg rm ts)],
            status := [row_of status_columns tm,
                       row_of status_columns (promoted_msg rm ts)],
            node := [], resource := [row_of resource_columns rm] },
    inserted_tasks := [Value.int a], inserted_tries := [int_key a b],
    deferred_resource_messages := [], workflow_start_message := none,
    workflow_end := false, ops := o }

theorem c1_iter_empty (s : CoordState) (it : Iter) (hp : it.prio = [])
    (hn : it.node = []) (hr : it.res = []) :
    process_iteration s it = Except.ok s := by
  simp only [process_iteration, hp, hn, hr]
  rfl

theorem c1_step_00_T (tm : Msg) (a b : Int)
    (htmT : Msg.lookup tm "task_id" = some (Value.int a))
    (htmR : Msg.lookup tm "try_id" = some (Value.int b))
    (it : Iter) (hp : it.prio = [(MessageType.TASK_INFO, tm)])
    (hn : it.node = []) (hr : it.res = []) :
    ∃ o, process_iteration initial_state it = Except.ok (stateT tm a b o) := by
  apply Exists.intro
  simp only [process_iteration, hp, hn, hr, process_priority_batch,
    List.isEmpty_cons, Bool.false_eq_true, if_false,
    List.foldlM_cons, List.foldlM_nil,
    classify_priority_task_info _ tm (Value.int a) (Value.int b) htmT htmR,
    except_ok_bind, except_pure_eq]
  simp only [classify_task_info_pure, initial_state, List.contains_nil,
    Bool.false_eq_true, if_false, Dict.get_nil, List.nil_append]
  simp only [apply_priority_dml, dbm_insert, dbm_update, insertInto_task,
    insertInto_status, insertInto_try, updateInto_workflow,
    List.isEmpty_nil, List.isEmpty_cons, if_true, Bool.false_eq_true, if_false,
    generate_mappings, List.map_cons, List.map_nil, bulkUpdate,
    List.foldl_cons, List.foldl_nil, process_node_batch, process_resource_batch,
    apply_reprocessable, except_ok_bind, except_pure_eq]
  rfl

theorem c1_step_00_R (rm : Msg) (a b : Int) (fv ts : Value)
    (hrmT : Msg.lookup rm "task_id" = some (Value.int a))
    (hrmR : Msg.lookup rm "try_id" = some (Value.int b))
    (hrmF : Msg.lookup rm "first_msg" = some fv) (hfv : fv.truthy = true)
    (hrmTs : Msg.lookup rm "timestamp" = some ts)
    (it : Iter) (hp : it.prio = []) (hn : it.node = []) (hr : it.res = [rm]) :
    ∃ o, process_iteration initial_state it = Except.ok (stateR rm a b ts o) := by
  apply Exists.intro
  have h1 : task_try_id_of rm =
      Except.ok ((Value.int a).pystr ++ "." ++ (Value.int b).pystr) := by
    unfold task_try_id_of
    rw [Msg.subscript_of_lookup rm "task_id" (Value.int a) hrmT]
    simp only [except_ok_bind]
    rw [Msg.subscript_of_lookup rm "try_id" (Value.int b) hrmR]
    rfl
  simp only [process_iteration, hp, hn, hr, process_priority_batch,
    List.isEmpty_nil, if_true, except_pure_eq, except_ok_bind,
    process_node_batch, process_resource_batch, List.isEmpty_cons,
    Bool.false_eq_true, if_false,
    List.foldlM_cons, List.foldlM_nil, handle_resource_message, h1,
    Msg.subscript_of_lookup rm "first_msg" fv hrmF, hfv, if_true,
    Msg.subscript_of_lookup rm "timestamp" ts hrmTs, dbm_insert,
    insertInto_resource, initial_state, List.contains_nil,
    apply_reprocessable]
  rfl

theorem c1_step_T_F (tm rm : Msg) (a b : Int) (fv ts : Value)
    (hrmT : Msg.lookup rm "task_id" = some (Value.int a))
    (hrmR : Msg.lookup rm "try_id" = some (Value.int b))
    (hrmF : Msg.lookup rm "first_msg" = some fv) (hfv : fv.truthy = true)
    (hrmTs : Msg.lookup rm "timestamp" = some ts)
    (it : Iter) (hp : it.prio = []) (hn : it.node = []) (hr : it.res = [rm])
    (o : List DMLOp) :
    ∃ q, process_iteration (stateT tm a b o) it = Except.ok (stateF tm rm a b ts q) := by
  apply Exists.intro
  have h1 : task_try_id_of rm =
      Except.ok ((Value.int a).pystr ++ "." ++ (Value.int b).pystr) := by
    unfold task_try_id_of
    rw [Msg.subscript_of_lookup rm "task_id" (Value.int a) hrmT]
    simp only [except_ok_bind]
    rw [Msg.subscript_of_lookup rm "try_id" (Value.int b) hrmR]
    rfl
  simp only [process_iteration, hp, hn, hr, process_priority_batch,
    List.isEmpty_nil, if_true, except_pure_eq, except_ok_bind,
    process_node_batch, process_resource_batch, List.isEmpty_cons,
    Bool.false_eq_true, if_false,
    List.foldlM_cons, List.foldlM_nil, handle_resource_message, h1,
    Msg.subscript_of_lookup rm "first_msg" fv hrmF, hfv, if_true,
    Msg.subscript_of_lookup rm "timestamp" ts hrmTs, dbm_insert,
    insertInto_resource, stateT, int_key, List.contains_cons,
    List.contains_nil, beq_self_eq_true, Bool.true_or, if_true,
    apply_reprocessable, dbm_update, insertInto_status, updateInto_try,
    generate_mappings, List.map_cons, List.map_nil]
  rfl

theorem c1_step_R_F (tm rm : Msg) (a b : Int) (ts : Value)
    (htmT : Msg.lookup tm "task_id" = some (Value.int a))
    (htmR : Msg.lookup tm "try_id" = some (Value.int b))
    (it : Iter) (hp : it.prio = [(MessageType.TASK_INFO, tm)])
    (hn : it.node = []) (hr : it.res = []) (o : List DMLOp) :
    ∃ q, process_iteration (stateR rm a b ts o) it =
      Except.ok (stateF tm rm a b ts q) := by
  apply Exists.intro
  simp only [process_iteration, hp, hn, hr, process_priority_batch,
    List.isEmpty_cons, Bool.false_eq_true, if_false,
    List.foldlM_cons, List.foldlM_nil,
    classify_priority_task_info _ tm (Value.int a) (Value.int b) htmT htmR,
    except_ok_bind, except_pure_eq]
  simp only [classify_task_info_pure, stateR, int_key, List.contains_nil,
    Bool.false_eq_true, if_false, Dict.get_cons, if_pos rfl, List.nil_append,
    Dict.erase]
  simp only [apply_priority_dml, dbm_insert, dbm_update, insertInto_task,
    insertInto_status, insertInto_try, updateInto_workflow, updateInto_try,
    List.isEmpty_nil, List.isEmpty_cons, if_true, Bool.false_eq_true, if_false,
    generate_mappings, List.map_cons, List.map_nil, bulkUpdate,
    List.foldl_cons, List.foldl_nil, process_node_batch, process_resource_batch,
    apply_reprocessable, except_ok_bind, except_pure_eq]
  rfl

theorem c1_step_00_F (tm rm : Msg) (a b : Int) (fv ts : Value)
    (htmT : Msg.lookup tm "task_id" = some (Value.int a))
    (htmR : Msg.lookup tm "try_id" = some (Value.int b))
    (hrmT : Msg.lookup rm "task_id" = some (Value.int a))
    (hrmR : Msg.lookup rm "try_id" = some (Value.int b))
    (hrmF : Msg.lookup rm "first_msg" = some fv) (hfv : fv.truthy = true)
    (hrmTs : Msg.lookup rm "timestamp" = some ts)
    (it : Iter) (hp : it.prio = [(MessageType.TASK_INFO, tm)])
    (hn : it.node = []) (hr : it.res = [rm]) :
    ∃ o, process_iteration initial_state it = Except.ok (stateF tm rm a b ts o) := by
  apply Exists.intro
  have h1 : task_try_id_of rm =
      Except.ok ((Value.int a).pystr ++ "." ++ (Value.int b).pystr) := by
    unfold task_try_id_of
    rw [Msg.subscript_of_lookup rm "task_id" (Value.int a) hrmT]
    simp only [except_ok_bind]
    rw [Msg.subscript_of_lookup rm "try_id" (Value.int b) hrmR]
    rfl
  simp only [process_iteration, hp, hn, hr, process_priority_batch,
    List.isEmpty_cons, Bool.false_eq_true, if_false,
    List.foldlM_cons, List.foldlM_nil,
    classify_priority_task_info _ tm (Value.int a) (Value.int b) htmT htmR,
    except_ok_bind, except_pure_eq]
  simp only [classify_task_info_pure, initial_state, List.contains_nil,
    Bool.false_eq_true, if_false, Dict.get_nil, List.nil_append]
  simp only [apply_priority_dml, dbm_insert, dbm_update, insertInto_task,
    insertInto_status, insertInto_try, insertInto_resource,
    updateInto_workflow, updateInto_try,
    List.isEmpty_nil, List.isEmpty_cons, if_true, Bool.false_eq_true, if_false,
    generate_mappings, List.map_cons, List.map_nil, bulkUpdate,
    List.foldl_cons, List.foldl_nil, process_node_batch, process_resource_batch,
    except_ok_bind, except_pure_eq]
  simp only [List.foldlM_cons, List.foldlM_nil, handle_resource_message, h1,
    Msg.subscript_of_lookup rm "first_msg" fv hrmF, hfv, if_true,
    Msg.subscript_of_lookup rm "timestamp" ts hrmTs,
    List.contains_cons, List.contains_nil, beq_self_eq_true, Bool.true_or,
    except_ok_bind, except_pure_eq, apply_reprocessable,
    List.isEmpty_cons, Bool.false_eq_true, if_false,
    dbm_insert, dbm_update, insertInto_status, updateInto_try,
    generate_mappings, List.map_cons, List.map_nil]
  rfl

/-- The phase automaton: `P` is true while the TASK_INFO message is still
pending, `R` while the resource message is still pending. -/
def PhaseInv (tm rm : Msg) (a b : Int) (ts : Value) :
    Bool → Bool → CoordState → Prop
  | true, true, s => s = initial_state
  | false, true, s => ∃ o, s = stateT tm a b o
  | true, false, s => ∃ o, s = stateR rm a b ts o
  | false, false, s => ∃ o, s = stateF tm rm a b ts o

theorem c1_run (tm rm : Msg) (a b : Int) (fv ts : Value)
    (htmT : Msg.lookup tm "task_id" = some (Value.int a))
    (htmR : Msg.lookup tm "try_id" = some (Value.int b))
    (hrmT : Msg.lookup rm "task_id" = some (Value.int a))
    (hrmR : Msg.lookup rm "try_id" = some (Value.int b))
    (hrmF : Msg.lookup rm "first_msg" = some fv) (hfv : fv.truthy = true)
    (hrmTs : Msg.lookup rm "timestamp" = some ts) :
    ∀ (iters : List Iter) (P R : Bool) (s s' : CoordState),
      (iters.map Iter.prio).flatten =
        (if P then [(MessageType.TASK_INFO, tm)] else []) →
      (∀ it ∈ iters, it.node = []) →
      (iters.map Iter.res).flatten = (if R then [rm] else []) →
      PhaseInv tm rm a b ts P R s →
      run_trace s iters = Except.ok s' →
      ∃ o, s' = stateF tm rm a b ts o := by
  intro iters
  induction iters with
  | nil =>
    intro P R s s' hp hn hr hinv h
    cases P
    · cases R
      · simp only [run_trace, List.foldlM_nil] at h
        obtain ⟨o, rfl⟩ := hinv
        exact ⟨o, (Except.ok.inj h).symm⟩
      · simp at hr
    · simp at hp
  | cons it rest ih =>
    intro P R s s' hp hn hr hinv h
    simp only [List.map_cons, List.flatten_cons] at hp hr
    have hnode_it : it.node = [] := hn it (List.mem_cons_self it rest)
    have hn' : ∀ i ∈ rest, i.node = [] := fun i hi => hn i (List.mem_cons_of_mem _ hi)
    unfold run_trace at h
    rw [List.foldlM_cons] at h
    cases P
    · -- the TASK_INFO message was already processed: no priority message here
      rw [if_neg Bool.false_ne_true] at hp
      obtain ⟨hp1, hp2⟩ := List.append_eq_nil.mp hp
      cases R
      · -- both processed: an all-empty iteration
        rw [if_neg Bool.false_ne_true] at hr
        obtain ⟨hr1, hr2⟩ := List.append_eq_nil.mp hr
        rw [c1_iter_empty s it hp1 hnode_it hr1] at h
        simp only [except_ok_bind] at h
        exact ih false false s s' (by simp [hp2]) hn' (by simp [hr2]) hinv h
      · -- resource message pending
        rw [if_pos rfl] at hr
        obtain ⟨q, rfl⟩ := hinv
        cases hcr : it.res with
        | nil =>
          rw [hcr, List.nil_append] at hr
          rw [c1_iter_empty _ it hp1 hnode_it hcr] at h
          simp only [except_ok_bind] at h
          exact ih false true _ s' (by simp [hp2]) hn' (by simp [hr]) ⟨q, rfl⟩ h
        | cons r rs =>
          rw [hcr] at hr
          simp only [List.cons_append, List.cons.injEq] at hr
          obtain ⟨he, hr3⟩ := hr
          obtain ⟨hrs, hr4⟩ := List.append_eq_nil.mp hr3
          have hres_it : it.res = [rm] := by rw [hcr, he, hrs]
          obtain ⟨q2, hstep⟩ := c1_step_T_F tm rm a b fv ts hrmT hrmR hrmF hfv
            hrmTs it hp1 hnode_it hres_it q
          rw [hstep] at h
          simp only [except_ok_bind] at h
          exact ih false false _ s' (by simp [hp2]) hn' (by simp [hr4]) ⟨q2, rfl⟩ h
    · -- the TASK_INFO message is pending
      rw [if_pos rfl] at hp
      cases R
      · -- the resource message was already processed (parked in the dict)
        rw [if_neg Bool.false_ne_true] at hr
        obtain ⟨hr1, hr2⟩ := List.append_eq_nil.mp hr
        obtain ⟨q, rfl⟩ := hinv
        cases hcp : it.prio with
        | nil =>
          rw [hcp, List.nil_append] at hp
          rw [c1_iter_empty _ it hcp hnode_it hr1] at h
          simp only [except_ok_bind] at h
          exact ih true false _ s' (by simp [hp]) hn' (by simp [hr2]) ⟨q, rfl⟩ h
        | cons p ps =>
          rw [hcp] at hp
          simp only [List.cons_append, List.cons.injEq] at hp
          obtain ⟨he, hp3⟩ := hp
          obtain ⟨hps, hp4⟩ := List.append_eq_nil.mp hp3
          have hprio_it : it.prio = [(MessageType.TASK_INFO, tm)] := by
            rw [hcp, he, hps]
          obtain ⟨q2, hstep⟩ := c1_step_R_F tm rm a b ts htmT htmR it hprio_it
            hnode_it hr1 q
          rw [hstep] at h
          simp only [except_ok_bind] at h
          exact ih false false _ s' (by simp [hp4]) hn' (by simp [hr2]) ⟨q2, rfl⟩ h
      · -- both pending
        rw [if_pos rfl] at hr
        have hs : s = initial_state := hinv
        subst hs
        cases hcp : it.prio with
        | nil =>
          rw [hcp, List.nil_append] at hp
          cases hcr : it.res with
          | nil =>
            rw [hcr, List.nil_append] at hr
            rw [c1_iter_empty _ it hcp hnode_it hcr] at h
            simp only [except_ok_bind] at h
            exact ih true true _ s' (by simp [hp]) hn' (by simp [hr]) rfl h
          | cons r rs =>
            rw [hcr] at hr
            simp only [List.cons_append, List.cons.injEq] at hr
            obtain ⟨he, hr3⟩ := hr
            obtain ⟨hrs, hr4⟩ := List.append_eq_nil.mp hr3
            have hres_it : it.res = [rm] := by rw [hcr, he, hrs]
            obtain ⟨q, hstep⟩ := c1_step_00_R rm a b fv ts hrmT hrmR hrmF hfv
              hrmTs it hcp hnode_it hres_it
            rw [hstep] at h
            simp only [except_ok_bind] at h
            exact ih true false _ s' (by simp [hp]) hn' (by simp [hr4]) ⟨q, rfl⟩ h
        | cons p ps =>
          rw [hcp] at hp
          simp only [List.cons_append, List.cons.injEq] at hp
          obtain ⟨he, hp3⟩ := hp
          obtain ⟨hps, hp4⟩ := List.append_eq_nil.mp hp3
          have hprio_it : it.prio = [(MessageType.TASK_INFO, tm)] := by
            rw [hcp, he, hps]
          cases hcr : it.res with
          | nil =>
            rw [hcr, List.nil_append] at hr
            obtain ⟨q, hstep⟩ := c1_step_00_T tm a b htmT htmR it hprio_it
              hnode_it hcr
            rw [hstep] at h
            simp only [except_ok_bind] at h
            exact ih false true _ s' (by simp [hp4]) hn' (by simp [hr]) ⟨q, rfl⟩ h
          | cons r rs =>
            rw [hcr] at hr
            simp only [List.cons_append, List.cons.injEq] at hr
            obtain ⟨he2, hr3⟩ := hr
            obtain ⟨hrs, hr4⟩ := List.append_eq_nil.mp hr3
            have hres_it : it.res = [rm] := by rw [hcr, he2, hrs]
            obtain ⟨q, hstep⟩ := c1_step_00_F tm rm a b fv ts htmT htmR hrmT hrmR
              hrmF hfv hrmTs it hprio_it hnode_it hres_it
            rw [hstep] at h
            simp only [except_ok_bind] at h
            exact ih false false _ s' (by simp [hp4]) hn' (by simp [hr4]) ⟨q, rfl⟩ h

theorem promoted_lookup_task_id (rm : Msg) (ts : Value) :
    Msg.lookup (promoted_msg rm ts) "task_id" = Msg.lookup rm "task_id" := by
  simp [promoted_msg, Msg.lookup]

theorem promoted_lookup_try_id (rm : Msg) (ts : Value) :
    Msg.lookup (promoted_msg rm ts) "try_id" = Msg.lookup rm "try_id" := by
  simp [promoted_msg, Msg.lookup]

theorem promoted_lookup_run_id (rm : Msg) (ts : Value) :
    Msg.lookup (promoted_msg rm ts) "run_id" = Msg.lookup rm "run_id" := by
  simp [promoted_msg, Msg.lookup]

theorem promoted_lookup_status (rm : Msg) (ts : Value) :
    Msg.lookup (promoted_msg rm ts) "task_status_name" =
      some (Value.str "running") := by
  simp [promoted_msg, Msg.lookup, States_running_name]

theorem promoted_lookup_time_running (rm : Msg) (ts : Value) :
    Msg.lookup (promoted_msg rm ts) "task_time_running" = some ts := by
  simp [promoted_msg, Msg.lookup]

/-- C1: for any interleaving (across loop iterations, or within one) of one
TASK_INFO priority message and one first_msg resource message for the same
(task_id, try_id) — whether the resource message arrives first and is parked
in deferred_resource_messages, or arrives after the TASK_INFO and is
promoted directly — once the trace has been processed there is exactly one
Status row for the pair with task_status_name = "running", and the pair's
unique Try row has task_time_running equal to the resource message's
timestamp. -/
theorem c1_deferred_promotion (tm rm : Msg) (a b : Int) (fv ts : Value)
    (iters : List Iter) (s' : CoordState)
    (htmT : Msg.lookup tm "task_id" = some (Value.int a))
    (htmR : Msg.lookup tm "try_id" = some (Value.int b))
    (htmS : ¬ Msg.lookup tm "task_status_name" = some (Value.str "running"))
    (hrmT : Msg.lookup rm "task_id" = some (Value.int a))
    (hrmR : Msg.lookup rm "try_id" = some (Value.int b))
    (hrmF : Msg.lookup rm "first_msg" = some fv)
    (hfv : fv.truthy = true)
    (hrmTs : Msg.lookup rm "timestamp" = some ts)
    (hrun : Msg.lookup tm "run_id" = Msg.lookup rm "run_id")
    (hprio : (iters.map Iter.prio).flatten = [(MessageType.TASK_INFO, tm)])
    (hnode : ∀ it ∈ iters, it.node = [])
    (hres : (iters.map Iter.res).flatten = [rm])
    (h : run_trace initial_state iters = Except.ok s') :
    s'.db.status.countP (fun row =>
      Dict.get row "task_id" == some (some (Value.int a)) &&
      Dict.get row "try_id" == some (some (Value.int b)) &&
      Dict.get row "task_status_name" == some (some (Value.str "running"))) = 1 ∧
    (s'.db.try_.filter (fun row =>
      Dict.get row "task_id" == some (some (Value.int a)) &&
      Dict.get row "try_id" == some (some (Value.int b)))).map
      (fun row => Dict.get row "task_time_running") = [some (some ts)] := by
  obtain ⟨o, rfl⟩ := c1_run tm rm a b fv ts htmT htmR hrmT hrmR hrmF hfv hrmTs
    iters true true initial_state s' (by simpa using hprio) hnode
    (by simpa using hres) rfl h
  have hmatch : pkMatch try_pk
      (row_of ["task_time_running", "run_id", "task_id", "try_id", "hostname"]
        (promoted_msg rm ts))
      (row_of try_columns tm) = true := by
    simp [pkMatch, try_pk, row_of_get, try_columns, htmT, htmR, hrmT, hrmR,
      promoted_lookup_task_id, promoted_lookup_try_id, promoted_lookup_run_id,
      hrun]
  constructor
  · simp only [stateF, List.countP_cons, List.countP_nil]
    simp [row_of_get, status_columns, htmT, htmR, hrmT, hrmR, htmS,
      promoted_lookup_task_id, promoted_lookup_try_id, promoted_lookup_status]
  · simp only [stateF]
    have hbu : bulkUpdate try_pk [row_of try_columns tm]
        [row_of ["task_time_running", "run_id", "task_id", "try_id", "hostname"]
          (promoted_msg rm ts)] =
        [updateRow try_pk
          (row_of ["task_time_running", "run_id", "task_id", "try_id", "hostname"]
            (promoted_msg rm ts))
          (row_of try_columns tm)] := by
      simp [bulkUpdate]
    rw [hbu]
    have gtask : Dict.get (updateRow try_pk
        (row_of ["task_time_running", "run_id", "task_id", "try_id", "hostname"]
          (promoted_msg rm ts))
        (row_of try_columns tm)) "task_id" = some (some (Value.int a)) := by
      simp [updateRow_get, hmatch, row_of_get, try_columns, htmT, hrmT,
        promoted_lookup_task_id]
    have gtry : Dict.get (updateRow try_pk
        (row_of ["task_time_running", "run_id", "task_id", "try_id", "hostname"]
          (promoted_msg rm ts))
        (row_of try_columns tm)) "try_id" = some (some (Value.int b)) := by
      simp [updateRow_get, hmatch, row_of_get, try_columns, htmR, hrmR,
        promoted_lookup_try_id]
    have gttr : Dict.get (updateRow try_pk
        (row_of ["task_time_running", "run_id", "task_id", "try_id", "hostname"]
          (promoted_msg rm ts))
        (row_of try_columns tm)) "task_time_running" = some (some ts) := by
      rw [updateRow_get, if_pos hmatch]
      simp [row_of_get, try_columns, promoted_lookup_time_running]
    simp [List.filter_cons, gtask, gtry, gttr]

/-- Witness for C1 at a concrete input: the resource message arrives one
iteration before its TASK_INFO message and is promoted out of
deferred_resource_messages. -/
theorem c1_deferred_promotion_witness :
    (match run_trace initial_state
        [{ prio := [], node := [],
           res := [[("task_id", Value.int 3), ("try_id", Value.int 1),
                    ("run_id", Value.str "rw"), ("first_msg", Value.bool true),
                    ("timestamp", Value.int 42)]] },
         { prio := [(MessageType.TASK_INFO,
             [("task_id", Value.int 3), ("try_id", Value.int 1),
              ("run_id", Value.str "rw"),
              ("task_status_name", Value.str "pending")])], node := [], res := [] }] with
      | Except.ok s => s
      | Except.error _ => initial_state).db.status.countP (fun row =>
      Dict.get row "task_id" == some (some (Value.int 3)) &&
      Dict.get row "try_id" == some (some (Value.int 1)) &&
      Dict.get row "task_status_name" == some (some (Value.str "running"))) = 1 ∧
    ((match run_trace initial_state
        [{ prio := [], node := [],
           res := [[("task_id", Value.int 3), ("try_id", Value.int 1),
                    ("run_id", Value.str "rw"), ("first_msg", Value.bool true),
                    ("timestamp", Value.int 42)]] },
         { prio := [(MessageType.TASK_INFO,
             [("task_id", Value.int 3), ("try_id", Value.int 1),
              ("run_id", Value.str "rw"),
              ("task_status_name", Value.str "pending")])], node := [], res := [] }] with
      | Except.ok s => s
      | Except.error _ => initial_state).db.try_.filter (fun row =>
      Dict.get row "task_id" == some (some (Value.int 3)) &&
      Dict.get row "try_id" == some (some (Value.int 1)))).map
      (fun row => Dict.get row "task_time_running") =
      [some (some (Value.int 42))] := by
  refine c1_deferred_promotion
    [("task_id", Value.int 3), ("try_id", Value.int 1),
     ("run_id", Value.str "rw"), ("task_status_name", Value.str "pending")]
    [("task_id", Value.int 3), ("try_id", Value.int 1),
     ("run_id", Value.str "rw"), ("first_msg", Value.bool true),
     ("timestamp", Value.int 42)]
    3 1 (Value.bool true) (Value.int 42)
    [{ prio := [], node := [],
       res := [[("task_id", Value.int 3), ("try_id", Value.int 1),
                ("run_id", Value.str "rw"), ("first_msg", Value.bool true),
                ("timestamp", Value.int 42)]] },
     { prio := [(MessageType.TASK_INFO,
         [("task_id", Value.int 3), ("try_id", Value.int 1),
          ("run_id", Value.str "rw"),
          ("task_status_name", Value.str "pending")])], node := [], res := [] }]
    _ rfl rfl (by decide) rfl rfl rfl rfl rfl rfl rfl ?_ rfl rfl
  intro it hit
  rcases List.mem_cons.mp hit with rfl | hit2
  · rfl
  · rcases List.mem_singleton.mp hit2 with rfl
    rfl

end ParslDB
